import Mathlib

/-!
Verification development for the supervisor client protocol engine
(`src/Controller/api/supervisor.c`): a shallow embedding of the field/node
registries, the pending field-request queue, the per-step serializer and reply
dispatcher, and the public field-operation API, together with theorems about
the queueing discipline, coalescing, index validation and cache freshness.

Modelling conventions:
* C doubles are modelled as `ℚ`.  The engine only copies, stores and compares
  them (no floating-point arithmetic is performed on the paths modelled here),
  so the ordered-field structure of `ℚ` is a faithful abstraction of the
  finite doubles; NaN cannot occur on the modelled paths (`check_float`
  rejects it at the API boundary before any value is stored).
* C pointers to registry entries are modelled as keys: a field handle is the
  `Nat` identity of its registry entry, a node handle is the node's unique id.
  A NULL handle is `Option.none`.
* `union WbFieldData` is modelled as a discriminated sum indexed by the same
  member names; reading a member other than the active one (possible in C,
  never done on reachable paths) is modelled by a default value.
* `wb_robot_flush_unlocked` blocks until the simulator has consumed the step
  and delivered its reply, so a flush consumes one `StepReply` describing the
  opcodes of the inbound frame that the modelled state machine dispatches.
-/

namespace WebotsSupervisor

/-- `enum FIELD_REQUEST_TYPE { GET = 1, SET, IMPORT, IMPORT_FROM_STRING, REMOVE }`. -/
inductive FieldRequestType where
  | get
  | set
  | importNode
  | importFromString
  | remove
deriving DecidableEq, Repr

/-- The `WbFieldType` tags (`WB_SF_*`, `WB_MF_*`), plus `WB_NO_FIELD` (0) and the
bare `WB_MF` mask value (0x10), both of which are passed as the `type` argument
of `check_field` by some callers. -/
inductive WbFieldType where
  | noField
  | sfBool
  | sfInt32
  | sfFloat
  | sfVec2f
  | sfVec3f
  | sfRotation
  | sfColor
  | sfString
  | sfNode
  | mfBool
  | mfInt32
  | mfFloat
  | mfVec2f
  | mfVec3f
  | mfRotation
  | mfColor
  | mfString
  | mfNode
  | mf
deriving DecidableEq, Repr

/-- `type & WB_MF`: tests the 0x10 multi-field bit of a field-type tag. -/
def WbFieldType.hasMFBit : WbFieldType → Bool
  | .mfBool => true
  | .mfInt32 => true
  | .mfFloat => true
  | .mfVec2f => true
  | .mfVec3f => true
  | .mfRotation => true
  | .mfColor => true
  | .mfString => true
  | .mfNode => true
  | .mf => true
  | _ => false

/-- `union WbFieldData`, modelled as a discriminated sum.  The `sf_string`
member is an `Option String` (`none` is the NULL pointer); `sf_node_uid = 0`
encodes the NULL node. -/
inductive WbFieldData where
  | sf_bool (b : Bool)
  | sf_int32 (i : Int)
  | sf_float (x : ℚ)
  | sf_vec2f (x y : ℚ)
  | sf_vec3f (x y z : ℚ)
  | sf_rotation (x y z a : ℚ)
  | sf_string (s : Option String)
  | sf_node_uid (u : Int)
deriving DecidableEq, Repr

/-- Reading the `sf_string` member of the union (meaningful only when it is the
active member; the engine guarantees this on reachable paths via `is_string`). -/
def WbFieldData.stringValue : WbFieldData → Option String
  | .sf_string s => s
  | _ => none

/-- Reading the `sf_float` member of the union. -/
def WbFieldData.floatValue : WbFieldData → ℚ
  | .sf_float x => x
  | _ => 0

/-- Reading the `sf_node_uid` member of the union. -/
def WbFieldData.nodeUidValue : WbFieldData → Int
  | .sf_node_uid u => u
  | _ => 0

/-- `struct WbFieldStructPrivate`: one field-registry record. -/
structure WbFieldStruct where
  name : String
  type : WbFieldType
  count : Int
  node_unique_id : Int
  id : Int
  is_proto_internal : Bool
  data : WbFieldData
deriving DecidableEq, Repr

/-- `struct WbFieldRequestPrivate`: one pending field operation.  `fieldId` is
the identity (registry key) of the referenced `WbFieldStruct`, standing for the
C pointer `field`. -/
structure WbFieldRequest where
  type : FieldRequestType
  index : Int
  is_string : Bool
  data : WbFieldData
  fieldId : Nat
deriving DecidableEq, Repr

/-- `struct WbNodeStructPrivate`, restricted to the members the verified claims
touch.  `contact_points_present` models `contact_points != NULL`.
`number_of_contact_points` is left uninitialized by `add_node_to_list` in C;
the model initializes it to 0. -/
structure WbNodeStruct where
  id : Int
  def_name : Option String
  parent_id : Int
  tag : Int
  is_proto : Bool
  is_proto_internal : Bool
  number_of_contact_points : Int
  contact_points_present : Bool
  node_id_per_contact_points : List Int
  contact_points_time_stamp : ℚ
deriving DecidableEq, Repr

/-- The engine's mutable module-level state, restricted to the components the
verified claims touch: the node registry (`node_list`), the field registry
(`field_list`, with `Nat` identities standing for the C pointers), the pending
request FIFO (`field_requests_list_head/tail`), the in-flight GET slot and the
garbage list, plus the outcome of `robot_check_supervisor()`. -/
structure SupervisorState where
  nodes : List WbNodeStruct
  fields : List (Nat × WbFieldStruct)
  queue : List WbFieldRequest
  sent_field_get_request : Option WbFieldRequest
  garbage : List WbFieldRequest
  is_supervisor : Bool
deriving DecidableEq, Repr

/-- Look up a field-registry entry by its identity (dereferencing the handle). -/
def lookupField (st : SupervisorState) (fid : Nat) : Option WbFieldStruct :=
  (st.fields.find? (fun p => p.1 == fid)).map Prod.snd

/-- Overwrite the registry entry with identity `fid` (a store through the C
pointer; identities are unique by construction, see `add` paths). -/
def updateField (st : SupervisorState) (fid : Nat) (f : WbFieldStruct) : SupervisorState :=
  { st with fields := st.fields.map (fun p => if p.1 = fid then (fid, f) else p) }

/-- `find_field`: first registry entry with the given name and owner node id. -/
def find_field (fieldName : String) (node_id : Int) (fields : List (Nat × WbFieldStruct)) :
    Option (Nat × WbFieldStruct) :=
  fields.find? (fun p => p.2.node_unique_id == node_id && p.2.name == fieldName)

/-- `find_node_by_id`: first node-registry entry with the given unique id. -/
def find_node_by_id (id : Int) (l : List WbNodeStruct) : Option WbNodeStruct :=
  l.find? (fun n => n.id == id)

/-- Overwrite every node record carrying the given unique id (ids are unique in
reachable registries, so this is the store through the C node pointer). -/
def updateNode (st : SupervisorState) (id : Int) (nd : WbNodeStruct) : SupervisorState :=
  { st with nodes := st.nodes.map (fun m => if m.id = id then nd else m) }

/-- Index of the last `.` in a character list (`strrchr(s, '.') - s`). -/
def lastIndexOfDot : List Char → Option Nat
  | [] => none
  | c :: cs =>
    match lastIndexOfDot cs with
    | some i => some (i + 1)
    | none => if c = '.' then some 0 else none

/-- `extract_node_def`: the suffix of a DEF expression after its last `.`
(`NULL` stays `NULL`, the empty string stays empty, a dot-free string is
returned whole). -/
def extract_node_def (s : Option String) : Option String :=
  match s with
  | none => none
  | some str =>
    match lastIndexOfDot str.data with
    | some i => some (String.mk (str.data.drop (i + 1)))
    | none => some str

/-- `add_node_to_list` (upsert): when the uid is already registered only the
DEF name is refreshed (when a DEF expression is supplied and differs);
otherwise a fresh record is inserted at the head with a `-1.0` contact
timestamp. -/
def add_node_to_list (uid : Int) (def_name : Option String) (tag : Int) (parent_id : Int)
    (is_proto : Bool) (l : List WbNodeStruct) : List WbNodeStruct :=
  match find_node_by_id uid l with
  | some _ =>
    l.map (fun m =>
      if m.id = uid then
        match def_name with
        | some dn => if m.def_name = some dn then m else { m with def_name := extract_node_def (some dn) }
        | none => m
      else m)
  | none =>
    { id := uid
      def_name := extract_node_def def_name
      parent_id := parent_id
      tag := tag
      is_proto := is_proto
      is_proto_internal := false
      number_of_contact_points := 0
      contact_points_present := false
      node_id_per_contact_points := []
      contact_points_time_stamp := -1 } :: l

/-- Unlink the first node record with the given uid (`find_node_by_id` returns
the first match, and the unlink loop reconnects around exactly that record). -/
def eraseFirstNodeById (uid : Int) : List WbNodeStruct → List WbNodeStruct
  | [] => []
  | n :: ns => if n.id = uid then ns else n :: eraseFirstNodeById uid ns

/-- `remove_node_from_list`: unlink and free the node with the given uid (when
present), then set `parent_id := -1` on every remaining node whose parent was
the removed uid. -/
def remove_node_from_list (uid : Int) (l : List WbNodeStruct) : List WbNodeStruct :=
  (eraseFirstNodeById uid l).map
    (fun n => if n.parent_id = uid then { n with parent_id := -1 } else n)

/-- `create_and_append_field_request`, request-construction part.
C notes, preserved by this translation: (1) with `clamp_index` set, an index
out of `[0, count + offset)` on a counted field is silently clamped to 0 with
a warning; (2) the last operand of the `is_string` initializer reads
`(action = IMPORT && f->type == WB_MF_NODE)` — a single `=`, so it assigns
`IMPORT && f->type == WB_MF_NODE` (which is 1 exactly when the field type is
`WB_MF_NODE`, since `IMPORT` is nonzero) to the local variable `action` and
yields that value; `request->type` was already stored from the caller's
`action` on the preceding line, so only the dead local is clobbered. -/
def create_field_request (f : WbFieldStruct) (fid : Nat) (action : FieldRequestType)
    (index : Int) (data : WbFieldData) (clamp_index : Bool) : WbFieldRequest :=
  let offset : Int := if action = .importNode ∨ action = .importFromString then 1 else 0
  let index := if clamp_index ∧ f.count ≠ -1 ∧ (index ≥ f.count + offset ∨ index < 0) then 0 else index
  { type := action
    index := index
    is_string := decide (f.type = .sfString) || decide (f.type = .mfString) ||
      decide (action = .importFromString) || decide (f.type = .mfNode)
    data := data
    fieldId := fid }

/-- The coalescing scan of `field_operation_with_data`: the first queued `SET`
on the same field and index short-circuits the call.  A `GET` copies the
queued payload into the field's cached data; a `SET` overwrites the queued
payload in place (for strings, taking ownership and nulling the field's
cached string); any other action returns with no effect.  `none` means the
scan fell through (no matching queued `SET`). -/
def scanQueue (fid : Nat) (f : WbFieldStruct) (action : FieldRequestType) (index : Int)
    (data : WbFieldData) : List WbFieldRequest → Option (List WbFieldRequest × WbFieldStruct)
  | [] => none
  | r :: rs =>
    if r.fieldId = fid ∧ r.type = .set ∧ r.index = index then
      if action = .get then
        some (r :: rs,
          if r.is_string then { f with data := .sf_string r.data.stringValue }
          else { f with data := r.data })
      else if action = .set then
        if r.is_string then
          some ({ r with data := .sf_string data.stringValue } :: rs,
            { f with data := .sf_string none })
        else
          some ({ r with data := data } :: rs, f)
      else
        some (r :: rs, f)
    else
      match scanQueue fid f action index data rs with
      | some (q, f2) => some (r :: q, f2)
      | none => none

/-- The queue-draining loop of `supervisor_write_request`: each request is
written to the wire; non-GET requests are prepended to the garbage list, a GET
is moved into the `sent_field_get_request` slot.  Returns the final slot and
garbage list; the pending queue itself was emptied (head and tail nulled)
before the loop started. -/
def serializeFieldRequests : List WbFieldRequest → Option WbFieldRequest × List WbFieldRequest →
    Option WbFieldRequest × List WbFieldRequest
  | [], acc => acc
  | r :: rs, acc =>
    if r.type = .get then serializeFieldRequests rs (some r, acc.2)
    else serializeFieldRequests rs (acc.1, r :: acc.2)

/-- The `assert(sent_field_get_request == NULL)` discipline of the serializer:
true exactly when every GET encountered by the draining loop finds the sent
slot empty. -/
def serializeAssertOk : List WbFieldRequest → Option WbFieldRequest → Bool
  | [], _ => true
  | r :: rs, sent =>
    if r.type = .get then sent.isNone && serializeAssertOk rs (some r)
    else serializeAssertOk rs sent

/-- One simulator reply frame, restricted to the opcodes the verified claims
dispatch.  `field_get_value = none` models `field_type == 0` (node deleted);
`node_remove_node` carries removed uid, parent uid, parent field name and the
parent field's new count; `node_get_contact_points` carries the point count
and the per-contact node ids; `node_get_by_id` answers a NODE_GET_FROM_ID
handle resolution. -/
structure NodeAnswer where
  uid : Int
  tag : Int
  parent_uid : Int
  is_proto : Bool
  is_proto_internal : Bool
  def_name : Option String
deriving DecidableEq, Repr

structure StepReply where
  field_get_value : Option WbFieldData
  node_remove_node : Option (Int × Int × String × Int)
  field_insert_value : Option Int
  node_get_contact_points : Option (Int × List Int)
  node_get_by_id : Option NodeAnswer
deriving DecidableEq, Repr

/-- A reply frame carrying none of the supervisor opcodes. -/
def emptyReply : StepReply :=
  { field_get_value := none
    node_remove_node := none
    field_insert_value := none
    node_get_contact_points := none
    node_get_by_id := none }

/-- Update the count of the first registry entry matching a field name and
owner node id (the entry `find_field` would return). -/
def set_field_count_first (fname : String) (node_id : Int) (c : Int) :
    List (Nat × WbFieldStruct) → List (Nat × WbFieldStruct)
  | [] => []
  | p :: ps =>
    if p.2.node_unique_id = node_id ∧ p.2.name = fname then (p.1, { p.2 with count := c }) :: ps
    else p :: set_field_count_first fname node_id c ps

/-- `supervisor_read_answer`, case `C_SUPERVISOR_NODE_REMOVE_NODE`: drop the
removed node from the registry (orphaning its children), then refresh the
parent field's count when the parent node id is non-negative and the field is
registered. -/
def dispatch_node_remove_node (st : SupervisorState) (removed_uid parent_uid : Int)
    (fname : String) (parent_count : Int) : SupervisorState :=
  let st1 := { st with nodes := remove_node_from_list removed_uid st.nodes }
  if 0 ≤ parent_uid then
    { st1 with fields := set_field_count_first fname parent_uid parent_count st1.fields }
  else st1

/-- `supervisor_write_request` (field-queue part) followed by
`supervisor_read_answer` for one flush: the pending queue is drained
(`serializeFieldRequests`), a FIELD_GET_VALUE reply updates the sent GET's
field and frees the slot, a NODE_REMOVE_NODE reply updates the registries, and
the garbage list is freed at the end of the dispatcher. -/
def flushFieldRequests (st : SupervisorState) (rep : StepReply) : SupervisorState :=
  let sg := serializeFieldRequests st.queue (st.sent_field_get_request, st.garbage)
  let st1 : SupervisorState :=
    { st with
      queue := []
      fields :=
        match sg.1, rep.field_get_value with
        | some r, some d => st.fields.map (fun p => if p.1 = r.fieldId then (p.1, { p.2 with data := d }) else p)
        | _, _ => st.fields
      sent_field_get_request := none
      garbage := [] }
  match rep.node_remove_node with
  | some (ruid, puid, fname, pcount) => dispatch_node_remove_node st1 ruid puid fname pcount
  | none => st1

/-- `field_operation_with_data`: scan the pending queue for a `SET` on the same
field and index and coalesce into it; otherwise append a fresh request
(`clamp_index` true) and, for every action other than `SET`, force an
immediate flush (the getter, the two imports and the remove cannot be
postponed).  The returned `Bool` records whether the call flushed. -/
def field_operation_with_data (st : SupervisorState) (fid : Nat) (action : FieldRequestType)
    (index : Int) (data : WbFieldData) (rep : StepReply) : SupervisorState × Bool :=
  match lookupField st fid with
  | none => (st, false)
  | some f =>
    match scanQueue fid f action index data st.queue with
    | some (q, f2) => ({ updateField st fid f2 with queue := q }, false)
    | none =>
      let st1 := { st with queue := st.queue ++ [create_field_request f fid action index data true] }
      if action = .set then (st1, false) else (flushFieldRequests st1 rep, true)

/-- `field_operation`: `field_operation_with_data` with a zeroed union (the C
code passes `data.sf_string = NULL`). -/
def field_operation (st : SupervisorState) (fid : Nat) (action : FieldRequestType)
    (index : Int) (rep : StepReply) : SupervisorState × Bool :=
  field_operation_with_data st fid action index (.sf_string none) rep

/-- The MF-index part of `check_field`: with `offset = is_importing ? 0 : -1`,
an index outside `[-(count + 1 + offset), count + offset]` is rejected with a
diagnostic; an accepted negative index is replaced by
`index + count + 1 + offset`. -/
def checkIndexMF (count : Int) (is_importing : Bool) (index : Int) : Option Int :=
  let offset : Int := if is_importing then 0 else -1
  if index < -(count + 1 + offset) ∨ index > count + offset then none
  else if index < 0 then some (index + count + 1 + offset) else some index

/-- `check_field`: the supervisor check, the NULL / registry-membership checks
on the handle, the read-only PROTO-internal check, the field-type check and,
for MF `type` arguments, index validation and normalization.
`none` = rejected (a diagnostic is printed and the caller drops the
operation); `some none` = accepted on an SF path (index untouched);
`some (some i)` = accepted with the normalized MF index. -/
def check_field (st : SupervisorState) (fid : Option Nat) (ftype : WbFieldType)
    (check_type : Bool) (index : Option Int) (is_importing : Bool)
    (check_type_internal : Bool) : Option (Option Int) :=
  if !st.is_supervisor then none
  else
    match fid with
    | none => none
    | some n =>
      match lookupField st n with
      | none => none
      | some f =>
        if check_type_internal ∧ f.is_proto_internal then none
        else if check_type ∧ f.type ≠ ftype then none
        else if ftype.hasMFBit then
          match index with
          | none => none
          | some i =>
            match checkIndexMF f.count is_importing i with
            | none => none
            | some i2 => some (some i2)
        else some none

/-- `check_float`: rejects NaN (not representable in `ℚ`) and any value outside
`[-FLT_MAX, FLT_MAX]`. -/
def FLT_MAX : ℚ := 2 ^ 128 - 2 ^ 104

def check_float (value : ℚ) : Bool :=
  !decide (value > FLT_MAX) && !decide (value < -FLT_MAX)

/-- The cached data of the field with identity `fid` (zeroed union when the
handle is dangling, which cannot happen on checked paths). -/
def fieldDataOf (st : SupervisorState) (fid : Nat) : WbFieldData :=
  match lookupField st fid with
  | some f => f.data
  | none => .sf_string none

/-- `wb_supervisor_field_get_sf_float`: validates the handle and type, performs
a GET field operation and returns the field's cached `sf_float`.  The result
triple is (state, returned value, whether the call flushed). -/
def wb_supervisor_field_get_sf_float (st : SupervisorState) (fid : Option Nat)
    (rep : StepReply) : SupervisorState × ℚ × Bool :=
  match fid, check_field st fid .sfFloat true none false false with
  | some n, some _ =>
    let r := field_operation st n .get (-1) rep
    (r.1, (fieldDataOf r.1 n).floatValue, r.2)
  | _, _ => (st, 0, false)

/-- `wb_supervisor_field_set_sf_float`: validates the handle, type, writability
and the float bound, then performs a SET field operation (never flushing). -/
def wb_supervisor_field_set_sf_float (st : SupervisorState) (fid : Option Nat)
    (value : ℚ) : SupervisorState × Bool :=
  match fid, check_field st fid .sfFloat true none false true with
  | some n, some _ =>
    if check_float value then field_operation_with_data st n .set (-1) (.sf_float value) emptyReply
    else (st, false)
  | _, _ => (st, false)

/-- `wb_supervisor_field_set_mf_float`: like the SF setter but with MF index
validation/normalization in `check_field`. -/
def wb_supervisor_field_set_mf_float (st : SupervisorState) (fid : Option Nat)
    (index : Int) (value : ℚ) : SupervisorState × Bool :=
  match fid, check_field st fid .mfFloat true (some index) false true with
  | some n, some (some i2) =>
    if check_float value then field_operation_with_data st n .set i2 (.sf_float value) emptyReply
    else (st, false)
  | _, _ => (st, false)

/-- Outcome of a public API call whose C body may dereference an invalid
pointer before any validation runs: `crash` marks that undefined behavior. -/
inductive CallResult (α : Type) where
  | crash
  | ok (value : α)
deriving DecidableEq, Repr

/-- `wb_supervisor_field_remove_mf`.  Its first statement is
`if (field->count == 0)`: the field pointer is dereferenced before
`check_field` can reject a NULL or invalid handle, so those calls are
undefined behavior (`crash`).  On the checked path: empty-field and
`check_field` rejections are no-ops; otherwise a REMOVE field operation runs
(flushing), and the local count is decremented unless the field is
`WB_MF_NODE`, whose count is refreshed only by the NODE_REMOVE_NODE reply. -/
def wb_supervisor_field_remove_mf (st : SupervisorState) (fid : Option Nat) (index : Int)
    (rep : StepReply) : CallResult SupervisorState :=
  match fid with
  | none => .crash
  | some n =>
    match lookupField st n with
    | none => .crash
    | some f =>
      if f.count = 0 then .ok st
      else
        match check_field st (some n) .mf false (some index) false true with
        | none => .ok st
        | some none => .ok st
        | some (some i2) =>
          let r := field_operation st n .remove i2 rep
          match lookupField r.1 n with
          | none => .ok r.1
          | some f1 =>
            if f1.type = .mfNode then .ok r.1
            else .ok (updateField r.1 n { f1 with count := f1.count - 1 })

/-- `wb_supervisor_field_remove_sf`.  Its first statement is
`if (field->data.sf_node_uid == 0)`: the field pointer is dereferenced before
`check_field` can reject a NULL or invalid handle (`crash`).  On the checked
path a REMOVE field operation runs (flushing) and the count is zeroed. -/
def wb_supervisor_field_remove_sf (st : SupervisorState) (fid : Option Nat)
    (rep : StepReply) : CallResult SupervisorState :=
  match fid with
  | none => .crash
  | some n =>
    match lookupField st n with
    | none => .crash
    | some f =>
      if f.data.nodeUidValue = 0 then .ok st
      else
        match check_field st (some n) .sfNode true none false true with
        | none => .ok st
        | some _ =>
          let r := field_operation st n .remove (-1) rep
          match lookupField r.1 n with
          | none => .ok r.1
          | some f1 => .ok (updateField r.1 n { f1 with count := 0 })

/-- The tail of `wb_supervisor_field_import_sf_node`:
`if (imported_nodes_number >= 0) field->data.sf_node_uid = imported_nodes_number;`
(the store runs after the flush, reading the count the FIELD_INSERT_VALUE
reply put into `imported_nodes_number`, which was reset to -1 beforehand). -/
def store_imported_node_uid (st : SupervisorState) (fid : Nat) (inn : Int) : SupervisorState :=
  if 0 ≤ inn then
    match lookupField st fid with
    | some f2 => updateField st fid { f2 with data := .sf_node_uid inn }
    | none => st
  else st

/-- `wb_supervisor_field_import_sf_node`.  Argument checks in source order:
`check_field` (no type check, write target), NULL/empty filename, extension
present and not at position 0, then `if (strcmp(dot, ".wbo") == 0)` — which
rejects exactly the `.wbo` extension its own diagnostic claims to be the only
supported one — then the SF_NODE type check and the empty-field check; only
then is an IMPORT request appended (unclamped) and flushed, and a
FIELD_INSERT_VALUE reply value `>= 0` is stored as the new `sf_node_uid`.
The returned `Bool` records whether a request was enqueued and flushed. -/
def wb_supervisor_field_import_sf_node (st : SupervisorState) (fid : Option Nat)
    (filename : Option String) (rep : StepReply) : SupervisorState × Bool :=
  match fid, check_field st fid .noField false none false true with
  | some n, some _ =>
    match filename with
    | none => (st, false)
    | some fn =>
      if fn.data = [] then (st, false)
      else
        match lastIndexOfDot fn.data with
        | none => (st, false)
        | some 0 => (st, false)
        | some i =>
          if String.mk (fn.data.drop i) = ".wbo" then (st, false)
          else
            match lookupField st n with
            | none => (st, false)
            | some f =>
              if f.type ≠ .sfNode then (st, false)
              else if f.data.nodeUidValue ≠ 0 then (st, false)
              else
                let st1 :=
                  { st with queue := st.queue ++ [create_field_request f n .importNode (-1) (.sf_string (some fn)) false] }
                let inn : Int := match rep.field_insert_value with | some k => k | none => -1
                (store_imported_node_uid (flushFieldRequests st1 rep) n inn, true)
  | _, _ => (st, false)

/-- `node_get_from_id` (static helper): a locally registered node is returned
without wire traffic; otherwise a NODE_GET_FROM_ID request is flushed and the
reply (when its uid is nonzero and the node is not proto-internal, unless
`allows_contact_point_internal_node` is set) is upserted; the result is the
fresh head of the registry when the list changed, else a second local lookup.
Returns (state, node handle, whether the call flushed). -/
def node_get_from_id (st : SupervisorState) (id : Int) (allows : Bool)
    (rep : StepReply) : SupervisorState × Option Int × Bool :=
  match find_node_by_id id st.nodes with
  | some _ => (st, some id, false)
  | none =>
    let st1 := flushFieldRequests st rep
    match rep.node_get_by_id with
    | some a =>
      if a.uid ≠ 0 ∧ (a.is_proto_internal = false ∨ allows) then
        let inserted := (find_node_by_id a.uid st1.nodes).isNone
        let st2 := { st1 with
          nodes := add_node_to_list a.uid a.def_name a.tag a.parent_uid a.is_proto st1.nodes }
        (st2,
          (if inserted then st2.nodes.head?.map (fun m => m.id)
           else (find_node_by_id id st2.nodes).map (fun m => m.id)), true)
      else (st1, (find_node_by_id id st1.nodes).map (fun m => m.id), true)
    | none => (st1, (find_node_by_id id st1.nodes).map (fun m => m.id), true)

/-- Dispatch of a `C_SUPERVISOR_NODE_GET_CONTACT_POINTS` reply onto the node
the query targeted: the old buffers are freed, the count is stored, and the
point and node-id buffers are refilled exactly when the count is positive. -/
def applyContactReply (st : SupervisorState) (id : Int) (rep : StepReply) : SupervisorState :=
  match rep.node_get_contact_points with
  | some (k, ids) =>
    match find_node_by_id id st.nodes with
    | some m =>
      updateNode st id
        { m with
          number_of_contact_points := k
          contact_points_present := decide (0 < k)
          node_id_per_contact_points := if 0 < k then ids else [] }
    | none => st
  | none => st

/-- `wb_supervisor_node_get_number_of_contact_points`: after the supervisor and
handle-validity checks, a query at a simulation time strictly greater than the
node's stored timestamp advances the timestamp, flushes a contact-points
request and returns the refreshed count; otherwise the cached count is
returned with no wire traffic.  Result: (state, count, wire request issued). -/
def wb_supervisor_node_get_number_of_contact_points (st : SupervisorState) (nid : Option Int)
    (include_descendants : Bool) (t : ℚ) (rep : StepReply) : SupervisorState × Int × Bool :=
  if !st.is_supervisor then (st, -1, false)
  else
    match nid with
    | none => (st, -1, false)
    | some id =>
      match find_node_by_id id st.nodes with
      | none => (st, -1, false)
      | some node =>
        if t > node.contact_points_time_stamp then
          let st1 := updateNode st id { node with contact_points_time_stamp := t }
          let st2 := applyContactReply (flushFieldRequests st1 rep) id rep
          (st2,
            (match find_node_by_id id st2.nodes with
             | some m => m.number_of_contact_points
             | none => -1), true)
        else (st, node.number_of_contact_points, false)

/-- `wb_supervisor_node_get_contact_point`: same freshness gate; the returned
value is the pointer `contact_points + 3 * index` modelled as `some (3 * index)`
when the cached buffer is present and `index < number_of_contact_points`, and
`none` for the static `invalid_vector` otherwise.
Result: (state, returned pointer, wire request issued). -/
def wb_supervisor_node_get_contact_point (st : SupervisorState) (nid : Option Int)
    (index : Int) (t : ℚ) (rep : StepReply) : SupervisorState × Option Int × Bool :=
  if !st.is_supervisor then (st, none, false)
  else
    match nid with
    | none => (st, none, false)
    | some id =>
      match find_node_by_id id st.nodes with
      | none => (st, none, false)
      | some node =>
        if t > node.contact_points_time_stamp then
          let st1 := updateNode st id { node with contact_points_time_stamp := t }
          let st2 := applyContactReply (flushFieldRequests st1 rep) id rep
          (st2,
            (match find_node_by_id id st2.nodes with
             | some m =>
               if m.contact_points_present ∧ index < m.number_of_contact_points then some (3 * index) else none
             | none => none), true)
        else
          (st,
            (if node.contact_points_present ∧ index < node.number_of_contact_points then some (3 * index) else none),
            false)

/-- `wb_supervisor_node_get_contact_point_node`: same freshness gate for the
contact cache (no early return: the lookup continues either way), then the
contact node id at `index` is resolved through `node_get_from_id` with
`allows_contact_point_internal_node` set.  Result: (state, resolved node
handle, contact-points wire request issued, handle-resolution wire request
issued). -/
def wb_supervisor_node_get_contact_point_node (st : SupervisorState) (nid : Option Int)
    (index : Int) (t : ℚ) (rep rep2 : StepReply) :
    SupervisorState × Option Int × Bool × Bool :=
  if !st.is_supervisor then (st, none, false, false)
  else
    match nid with
    | none => (st, none, false, false)
    | some id =>
      match find_node_by_id id st.nodes with
      | none => (st, none, false, false)
      | some node =>
        let fresh := decide (t > node.contact_points_time_stamp)
        let st1 :=
          if fresh then
            applyContactReply
              (flushFieldRequests (updateNode st id { node with contact_points_time_stamp := t }) rep) id rep
          else st
        match find_node_by_id id st1.nodes with
        | none => (st1, none, fresh, false)
        | some m =>
          if m.contact_points_present = false ∨ m.number_of_contact_points ≤ index then
            (st1, none, fresh, false)
          else
            let cid := m.node_id_per_contact_points.getD index.toNat 0
            let r := node_get_from_id st1 cid true rep2
            (r.1, r.2.1, fresh, r.2.2)

/-! Observer definitions used to state the queueing-discipline claims. -/

/-- Every pending request is a (deferrable) SET. -/
def allSetRequests (q : List WbFieldRequest) : Prop :=
  ∀ r ∈ q, r.type = .set

/-- At a flush point every queued request except possibly the last is a SET:
the API call that enqueues anything else flushes before returning, so a
non-SET can only sit at the tail, inside the very call that appended it. -/
def queueDisciplined (q : List WbFieldRequest) : Prop :=
  ∀ r ∈ q.dropLast, r.type = .set

/-- The queued entries strictly after the first GET. -/
def entriesAfterFirstGet (q : List WbFieldRequest) : List WbFieldRequest :=
  (q.dropWhile (fun r => !decide (r.type = .get))).drop 1

/-! Concrete fixtures used by the witness theorems. -/

def fC1w : WbFieldStruct :=
  { name := "mass", type := .sfFloat, count := -1, node_unique_id := 7, id := 3,
    is_proto_internal := false, data := .sf_float 0 }

def stC1w : SupervisorState :=
  { nodes := [], fields := [(0, fC1w)], queue := [], sent_field_get_request := none,
    garbage := [], is_supervisor := true }

def fC2w : WbFieldStruct :=
  { name := "height", type := .sfFloat, count := -1, node_unique_id := 2, id := 4,
    is_proto_internal := false, data := .sf_float 0 }

def stC2w : SupervisorState :=
  { nodes := [], fields := [(0, fC2w)],
    queue := [{ type := .set, index := -1, is_string := false, data := .sf_float 1, fieldId := 0 }],
    sent_field_get_request := none, garbage := [], is_supervisor := true }

def stC3w : SupervisorState :=
  { nodes := [], fields := [],
    queue := [{ type := .set, index := -1, is_string := false, data := .sf_float 1, fieldId := 0 },
              { type := .get, index := -1, is_string := false, data := .sf_string none, fieldId := 1 }],
    sent_field_get_request := none, garbage := [], is_supervisor := true }

def fC4w : WbFieldStruct :=
  { name := "coord", type := .mfFloat, count := 3, node_unique_id := 2, id := 6,
    is_proto_internal := false, data := .sf_float 0 }

def stC4w : SupervisorState :=
  { nodes := [], fields := [(0, fC4w)], queue := [], sent_field_get_request := none,
    garbage := [], is_supervisor := true }

def fC5w : WbFieldStruct :=
  { name := "translationStep", type := .mfFloat, count := 3, node_unique_id := 4, id := 11,
    is_proto_internal := false, data := .sf_float 0 }

def stC5w : SupervisorState :=
  { nodes := [], fields := [(2, fC5w)], queue := [], sent_field_get_request := none,
    garbage := [], is_supervisor := true }

def ndC6a : WbNodeStruct :=
  { id := 5, def_name := some "BOX", parent_id := 0, tag := 0, is_proto := false,
    is_proto_internal := false, number_of_contact_points := 0, contact_points_present := false,
    node_id_per_contact_points := [], contact_points_time_stamp := -1 }

def ndC6b : WbNodeStruct := { ndC6a with id := 6, parent_id := 5 }

def ndC6c : WbNodeStruct := { ndC6a with id := 7, parent_id := 2 }

def lC6w : List WbNodeStruct := [ndC6a, ndC6b, ndC6c]

def fC7 : WbFieldStruct :=
  { name := "physics", type := .sfNode, count := -1, node_unique_id := 1, id := 9,
    is_proto_internal := false, data := .sf_node_uid 0 }

def stC7 : SupervisorState :=
  { nodes := [], fields := [(0, fC7)], queue := [], sent_field_get_request := none,
    garbage := [], is_supervisor := true }

def ndC8 : WbNodeStruct :=
  { id := 5, def_name := some "ROBOT1", parent_id := 0, tag := 0, is_proto := false,
    is_proto_internal := false, number_of_contact_points := 0, contact_points_present := false,
    node_id_per_contact_points := [], contact_points_time_stamp := -1 }

def stC8w : SupervisorState :=
  { nodes := [ndC8], fields := [], queue := [], sent_field_get_request := none,
    garbage := [], is_supervisor := true }

def repC8 : StepReply := { emptyReply with node_get_contact_points := some (2, [9, 9]) }

def stC9 : SupervisorState :=
  { nodes := [], fields := [], queue := [], sent_field_get_request := none,
    garbage := [], is_supervisor := true }

/-! Supporting lemmas. -/

theorem lookupField_set_queue (st : SupervisorState) (q : List WbFieldRequest) (fid : Nat) :
    lookupField { st with queue := q } fid = lookupField st fid := rfl

theorem find_map_update (l : List (Nat × WbFieldStruct)) (fid : Nat) (f2 : WbFieldStruct)
    (h : (l.find? (fun p => p.1 == fid)).isSome) :
    (l.map (fun p => if p.1 = fid then (fid, f2) else p)).find? (fun p => p.1 == fid) =
      some (fid, f2) := by
  induction l with
  | nil => simp at h
  | cons p ps ih =>
    by_cases hp : p.1 = fid
    · simp [hp]
    · have hp' : (p.1 == fid) = false := by simp [hp]
      simp only [List.find?_cons, hp'] at h
      simp only [List.map_cons, if_neg hp, List.find?_cons, hp']
      exact ih h

theorem lookupField_updateField (st : SupervisorState) (fid : Nat) (f2 : WbFieldStruct)
    (h : (lookupField st fid).isSome) :
    lookupField (updateField st fid f2) fid = some f2 := by
  unfold lookupField at h ⊢
  unfold updateField
  rw [find_map_update st.fields fid f2 (by
    cases hfind : st.fields.find? (fun p => p.1 == fid) with
    | none => rw [hfind] at h; simp at h
    | some p => simp [hfind])]
  rfl

theorem scanQueue_eq_none_iff (fid : Nat) (f : WbFieldStruct) (action : FieldRequestType)
    (i : Int) (d : WbFieldData) (q : List WbFieldRequest) :
    scanQueue fid f action i d q = none ↔
      ∀ r ∈ q, ¬(r.fieldId = fid ∧ r.type = .set ∧ r.index = i) := by
  induction q with
  | nil => simp [scanQueue]
  | cons r rs ih =>
    by_cases hm : r.fieldId = fid ∧ r.type = .set ∧ r.index = i
    · simp only [scanQueue, if_pos hm]
      constructor
      · intro h
        exfalso
        split at h
        · exact Option.noConfusion h
        · split at h
          · split at h <;> exact Option.noConfusion h
          · exact Option.noConfusion h
      · intro h
        exact absurd hm (h r (List.mem_cons_self r rs))
    · simp only [scanQueue, if_neg hm]
      constructor
      · intro h r' hr'
        rcases List.mem_cons.mp hr' with h1 | h2
        · subst h1; exact hm
        · refine (ih.mp ?_) r' h2
          cases hs : scanQueue fid f action i d rs with
          | none => rfl
          | some p => rw [hs] at h; exact Option.noConfusion h
      · intro h
        have : scanQueue fid f action i d rs = none :=
          ih.mpr (fun r' hr' => h r' (List.mem_cons_of_mem r hr'))
        rw [this]

theorem scanQueue_append_get (fid : Nat) (f : WbFieldStruct) (i : Int) (d : WbFieldData)
    (q : List WbFieldRequest) (r0 : WbFieldRequest)
    (hq : ∀ r ∈ q, ¬(r.fieldId = fid ∧ r.type = .set ∧ r.index = i))
    (hm : r0.fieldId = fid ∧ r0.type = .set ∧ r0.index = i)
    (hs : r0.is_string = false) :
    scanQueue fid f .get i d (q ++ [r0]) = some (q ++ [r0], { f with data := r0.data }) := by
  induction q with
  | nil => simp [scanQueue, hm, hs]
  | cons r rs ih =>
    have hr := hq r (List.mem_cons_self r rs)
    have ih' := ih (fun r' hr' => hq r' (List.mem_cons_of_mem r hr'))
    simp only [List.cons_append, scanQueue, if_neg hr, List.append_eq, ih']

theorem scanQueue_set_then_get (fid : Nat) (f : WbFieldStruct) (i : Int) (v : ℚ)
    (d : WbFieldData) (q : List WbFieldRequest)
    (hwf : ∀ r ∈ q, r.fieldId = fid → r.is_string = false) :
    ∀ q' f', scanQueue fid f .set i (.sf_float v) q = some (q', f') →
      f' = f ∧ scanQueue fid f .get i d q' = some (q', { f with data := .sf_float v }) := by
  induction q with
  | nil => intro q' f' h; simp [scanQueue] at h
  | cons r rs ih =>
    intro q' f' h
    by_cases hm : r.fieldId = fid ∧ r.type = .set ∧ r.index = i
    · have hs : r.is_string = false := hwf r (List.mem_cons_self r rs) hm.1
      simp only [scanQueue, if_pos hm, hs, Bool.false_eq_true, if_false,
        if_neg (show ¬(FieldRequestType.set = FieldRequestType.get) by decide),
        if_pos rfl, if_true, ite_true, Option.some.injEq, Prod.mk.injEq] at h
      obtain ⟨h1, h2⟩ := h
      subst h1
      subst h2
      refine ⟨rfl, ?_⟩
      simp [scanQueue, hm.1, hm.2.1, hm.2.2, hs]
    · simp only [scanQueue, if_neg hm] at h
      cases hs2 : scanQueue fid f .set i (.sf_float v) rs with
      | none => rw [hs2] at h; exact Option.noConfusion h
      | some p =>
        obtain ⟨q2, f2⟩ := p
        rw [hs2] at h
        simp only [Option.some.injEq, Prod.mk.injEq] at h
        obtain ⟨h1, h2⟩ := h
        subst h1
        subst h2
        have ih' := ih (fun r' hr' hfid => hwf r' (List.mem_cons_of_mem r hr') hfid) q2 f2 hs2
        exact ⟨ih'.1, by simp only [scanQueue, if_neg hm, ih'.2]⟩

theorem serializeFieldRequests_fst_of_no_get (q : List WbFieldRequest)
    (acc : Option WbFieldRequest × List WbFieldRequest)
    (h : ∀ r ∈ q, r.type ≠ .get) :
    (serializeFieldRequests q acc).1 = acc.1 := by
  induction q generalizing acc with
  | nil => rfl
  | cons r rs ih =>
    have hr : ¬(r.type = .get) := h r (List.mem_cons_self r rs)
    simp only [serializeFieldRequests, if_neg hr]
    exact ih _ (fun r' hr' => h r' (List.mem_cons_of_mem r hr'))

theorem flushFieldRequests_queue (st : SupervisorState) (rep : StepReply) :
    (flushFieldRequests st rep).queue = [] := by
  unfold flushFieldRequests dispatch_node_remove_node
  cases rep.node_remove_node with
  | none => rfl
  | some p =>
    obtain ⟨ruid, puid, fname, pcount⟩ := p
    by_cases hp : (0 : Int) ≤ puid <;> simp [hp]

theorem flushFieldRequests_sent (st : SupervisorState) (rep : StepReply) :
    (flushFieldRequests st rep).sent_field_get_request = none := by
  unfold flushFieldRequests dispatch_node_remove_node
  cases rep.node_remove_node with
  | none => rfl
  | some p =>
    obtain ⟨ruid, puid, fname, pcount⟩ := p
    by_cases hp : (0 : Int) ≤ puid <;> simp [hp]

theorem flushFieldRequests_nodes_of_no_remove (st : SupervisorState) (rep : StepReply)
    (h : rep.node_remove_node = none) :
    (flushFieldRequests st rep).nodes = st.nodes := by
  unfold flushFieldRequests
  rw [h]

theorem flushFieldRequests_fields_of_no_get (st : SupervisorState) (rep : StepReply)
    (hq : ∀ r ∈ st.queue, r.type ≠ .get)
    (hsent : st.sent_field_get_request = none)
    (hrem : rep.node_remove_node = none) :
    (flushFieldRequests st rep).fields = st.fields := by
  have hfst : (serializeFieldRequests st.queue (st.sent_field_get_request, st.garbage)).1 = none := by
    rw [serializeFieldRequests_fst_of_no_get _ _ hq, hsent]
  cases hfg : rep.field_get_value with
  | none => simp [flushFieldRequests, hrem, hfst, hfg]
  | some d => simp [flushFieldRequests, hrem, hfst, hfg]

theorem flushFieldRequests_fields_of_remove (st : SupervisorState) (rep : StepReply)
    (ruid puid : Int) (fname : String) (pcount : Int)
    (hq : ∀ r ∈ st.queue, r.type ≠ .get)
    (hsent : st.sent_field_get_request = none)
    (hrem : rep.node_remove_node = some (ruid, puid, fname, pcount))
    (hpuid : 0 ≤ puid) :
    (flushFieldRequests st rep).fields = set_field_count_first fname puid pcount st.fields := by
  have hfst : (serializeFieldRequests st.queue (st.sent_field_get_request, st.garbage)).1 = none := by
    rw [serializeFieldRequests_fst_of_no_get _ _ hq, hsent]
  cases hfg : rep.field_get_value with
  | none => simp [flushFieldRequests, hrem, hfst, hfg, dispatch_node_remove_node, hpuid]
  | some d => simp [flushFieldRequests, hrem, hfst, hfg, dispatch_node_remove_node, hpuid]

theorem store_imported_node_uid_queue (st : SupervisorState) (fid : Nat) (inn : Int) :
    (store_imported_node_uid st fid inn).queue = st.queue := by
  unfold store_imported_node_uid
  split
  · split <;> rfl
  · rfl

theorem find_field_set_count (fname : String) (nid : Int) (c : Int) (n : Nat) (f : WbFieldStruct) :
    ∀ l : List (Nat × WbFieldStruct), (l.map Prod.fst).Nodup →
      find_field fname nid l = some (n, f) →
      ((set_field_count_first fname nid c l).find? (fun p => p.1 == n)).map Prod.snd =
        some { f with count := c } := by
  intro l
  induction l with
  | nil => intro _ hfind; simp [find_field] at hfind
  | cons p ps ih =>
    intro hnodup hfind
    by_cases hp : p.2.node_unique_id = nid ∧ p.2.name = fname
    · have hpred : (p.2.node_unique_id == nid && p.2.name == fname) = true := by
        simp [hp.1, hp.2]
      simp only [find_field, List.find?_cons, hpred] at hfind
      have hp1 : p = (n, f) := Option.some.inj hfind
      subst hp1
      have hp' : f.node_unique_id = nid ∧ f.name = fname := hp
      simp [set_field_count_first, hp', List.find?_cons]
    · have hpred : (p.2.node_unique_id == nid && p.2.name == fname) = false := by
        rcases not_and_or.mp hp with h | h <;> simp [h]
      simp only [find_field, List.find?_cons, hpred] at hfind
      have hmem : (n, f) ∈ ps := List.mem_of_find?_eq_some hfind
      have hne : p.1 ≠ n := by
        intro he
        have : p.1 ∈ ps.map Prod.fst := List.mem_map.mpr ⟨(n, f), hmem, he.symm⟩
        exact (List.nodup_cons.mp hnodup).1 this
      have hbeq : (p.1 == n) = false := by simp [hne]
      simp only [set_field_count_first, if_neg hp, List.find?_cons, hbeq]
      exact ih (List.nodup_cons.mp hnodup).2 hfind

theorem mem_of_mem_eraseFirstNodeById {uid : Int} {n : WbNodeStruct} :
    ∀ {l : List WbNodeStruct}, n ∈ eraseFirstNodeById uid l → n ∈ l := by
  intro l
  induction l with
  | nil => intro h; simp [eraseFirstNodeById] at h
  | cons m ms ih =>
    intro h
    by_cases hm : m.id = uid
    · rw [eraseFirstNodeById, if_pos hm] at h
      exact List.mem_cons_of_mem m h
    · rw [eraseFirstNodeById, if_neg hm] at h
      rcases List.mem_cons.mp h with h1 | h2
      · exact h1 ▸ List.mem_cons_self m ms
      · exact List.mem_cons_of_mem m (ih h2)

theorem mem_eraseFirstNodeById_of_ne {uid : Int} {m : WbNodeStruct} (hne : m.id ≠ uid) :
    ∀ {l : List WbNodeStruct}, m ∈ l → m ∈ eraseFirstNodeById uid l := by
  intro l
  induction l with
  | nil => intro h; simp at h
  | cons x xs ih =>
    intro h
    rcases List.mem_cons.mp h with h1 | h2
    · subst h1
      rw [eraseFirstNodeById, if_neg hne]
      exact List.mem_cons_self _ _
    · by_cases hx : x.id = uid
      · rw [eraseFirstNodeById, if_pos hx]
        exact h2
      · rw [eraseFirstNodeById, if_neg hx]
        exact List.mem_cons_of_mem x (ih h2)

theorem id_ne_uid_of_mem_eraseFirstNodeById {uid : Int} {n : WbNodeStruct} :
    ∀ {l : List WbNodeStruct}, (l.map WbNodeStruct.id).Nodup →
      n ∈ eraseFirstNodeById uid l → n.id ≠ uid := by
  intro l
  induction l with
  | nil => intro _ h; simp [eraseFirstNodeById] at h
  | cons x xs ih =>
    intro hnodup h
    by_cases hx : x.id = uid
    · rw [eraseFirstNodeById, if_pos hx] at h
      intro he
      have : x.id ∈ xs.map WbNodeStruct.id := List.mem_map.mpr ⟨n, h, he.trans hx.symm⟩
      exact (List.nodup_cons.mp hnodup).1 this
    · rw [eraseFirstNodeById, if_neg hx] at h
      rcases List.mem_cons.mp h with h1 | h2
      · exact h1 ▸ hx
      · exact ih (List.nodup_cons.mp hnodup).2 h2

theorem find_node_by_id_id_eq {id : Int} {l : List WbNodeStruct} {m : WbNodeStruct}
    (h : find_node_by_id id l = some m) : m.id = id := by
  have := List.find?_some h
  simpa using this

theorem find_node_map_update (id : Int) (nd : WbNodeStruct) (hid : nd.id = id) :
    ∀ l : List WbNodeStruct, (find_node_by_id id l).isSome →
      find_node_by_id id (l.map (fun m => if m.id = id then nd else m)) = some nd := by
  intro l
  induction l with
  | nil => intro h; simp [find_node_by_id] at h
  | cons x xs ih =>
    intro h
    by_cases hx : x.id = id
    · simp only [List.map_cons, if_pos hx]
      rw [find_node_by_id, List.find?_cons_of_pos _ (by simp [hid])]
    · simp only [List.map_cons, if_neg hx]
      rw [find_node_by_id, List.find?_cons_of_neg _ (by simp [hx])]
      rw [find_node_by_id, List.find?_cons_of_neg _ (by simp [hx])] at h
      exact ih h

theorem find_node_updateNode (st : SupervisorState) (id : Int) (nd : WbNodeStruct)
    (hid : nd.id = id) (h : (find_node_by_id id st.nodes).isSome) :
    find_node_by_id id (updateNode st id nd).nodes = some nd :=
  find_node_map_update id nd hid st.nodes h

theorem checkIndexMF_true_eq (count i : Int) :
    checkIndexMF count true i =
      if i < -(count + 1 + 0) ∨ i > count + 0 then none
      else if i < 0 then some (i + count + 1 + 0) else some i := rfl

theorem checkIndexMF_false_eq (count i : Int) :
    checkIndexMF count false i =
      if i < -(count + 1 + -1) ∨ i > count + -1 then none
      else if i < 0 then some (i + count + 1 + -1) else some i := rfl

theorem checkIndexMF_importing_isSome_iff (count i : Int) :
    (checkIndexMF count true i).isSome ↔ (-(count + 1) ≤ i ∧ i ≤ count) := by
  rw [checkIndexMF_true_eq]
  split
  · rename_i h
    simp only [Option.isSome_none, Bool.false_eq_true, false_iff]
    omega
  · rename_i h
    split <;> simp <;> omega

theorem checkIndexMF_nonimporting_isSome_iff (count i : Int) :
    (checkIndexMF count false i).isSome ↔ (-count ≤ i ∧ i ≤ count - 1) := by
  rw [checkIndexMF_false_eq]
  split
  · rename_i h
    simp only [Option.isSome_none, Bool.false_eq_true, false_iff]
    omega
  · rename_i h
    split <;> simp <;> omega

theorem checkIndexMF_importing_neg (count i : Int) (h0 : i < 0) (hlo : -(count + 1) ≤ i) :
    checkIndexMF count true i = some (i + count + 1) := by
  rw [checkIndexMF_true_eq, if_neg (by omega), if_pos h0]
  norm_num

theorem checkIndexMF_nonimporting_neg (count i : Int) (h0 : i < 0) (hlo : -count ≤ i) :
    checkIndexMF count false i = some (i + count) := by
  rw [checkIndexMF_false_eq, if_neg (by omega), if_pos h0]
  congr 1
  omega

theorem checkIndexMF_importing_nonneg (count i : Int) (h0 : 0 ≤ i) (hhi : i ≤ count) :
    checkIndexMF count true i = some i := by
  rw [checkIndexMF_true_eq, if_neg (by omega), if_neg (by omega)]

theorem checkIndexMF_nonimporting_nonneg (count i : Int) (h0 : 0 ≤ i) (hhi : i ≤ count - 1) :
    checkIndexMF count false i = some i := by
  rw [checkIndexMF_false_eq, if_neg (by omega), if_neg (by omega)]

theorem check_field_sf_ok (st : SupervisorState) (n : Nat) (f : WbFieldStruct)
    (ftype : WbFieldType) (ci : Bool)
    (hsup : st.is_supervisor = true) (hf : lookupField st n = some f)
    (hpi : f.is_proto_internal = false) (hty : f.type = ftype)
    (hbit : ftype.hasMFBit = false) :
    check_field st (some n) ftype true none false ci = some none := by
  simp [check_field, hsup, hf, hpi, hty, hbit]

theorem check_field_mf_eval (st : SupervisorState) (n : Nat) (f : WbFieldStruct) (i : Int)
    (hsup : st.is_supervisor = true) (hf : lookupField st n = some f)
    (hpi : f.is_proto_internal = false) :
    check_field st (some n) .mf false (some i) false true =
      Option.map some (checkIndexMF f.count false i) := by
  simp only [check_field, hsup, Bool.not_true, Bool.false_eq_true, if_false, hf, hpi,
    and_false, false_and, WbFieldType.hasMFBit]
  cases checkIndexMF f.count false i <;> simp

theorem check_field_mfFloat_eval (st : SupervisorState) (n : Nat) (f : WbFieldStruct) (i : Int)
    (hsup : st.is_supervisor = true) (hf : lookupField st n = some f)
    (hpi : f.is_proto_internal = false) (hty : f.type = .mfFloat) :
    check_field st (some n) .mfFloat true (some i) false true =
      Option.map some (checkIndexMF f.count false i) := by
  simp only [check_field, hsup, Bool.not_true, Bool.false_eq_true, if_false, hf, hpi,
    and_false, hty, ne_eq, not_true_eq_false, true_and, WbFieldType.hasMFBit]
  cases checkIndexMF f.count false i <;> simp

theorem check_field_mf_some_implies (st : SupervisorState) (n : Nat) (f : WbFieldStruct)
    (ftype : WbFieldType) (ct : Bool) (i : Int) (imp ci : Bool) (i2 : Int)
    (hf : lookupField st n = some f)
    (h : check_field st (some n) ftype ct (some i) imp ci = some (some i2)) :
    checkIndexMF f.count imp i = some i2 := by
  simp only [check_field, hf] at h
  split at h
  · exact Option.noConfusion h
  · split at h
    · exact Option.noConfusion h
    · split at h
      · exact Option.noConfusion h
      · split at h
        · split at h
          · exact Option.noConfusion h
          · rename_i j heq
            have hj : j = i2 := Option.some.inj (Option.some.inj h)
            rw [heq, hj]
        · exact Option.noConfusion (Option.some.inj h)

theorem serialize_disciplined (q : List WbFieldRequest)
    (h : ∀ r ∈ q.dropLast, r.type = .set) :
    ∀ g : List WbFieldRequest,
      (serializeFieldRequests q (none, g)).1 = q.find? (fun r => decide (r.type = .get)) ∧
      serializeAssertOk q none = true ∧
      entriesAfterFirstGet q = [] := by
  induction q with
  | nil => exact fun g => ⟨rfl, rfl, rfl⟩
  | cons r rs ih =>
    intro g
    cases rs with
    | nil =>
      by_cases hr : r.type = .get
      · refine ⟨?_, ?_, ?_⟩
        · simp [serializeFieldRequests, hr]
        · simp [serializeAssertOk, hr]
        · simp [entriesAfterFirstGet, List.dropWhile, hr]
      · refine ⟨?_, ?_, ?_⟩
        · simp [serializeFieldRequests, hr]
        · simp [serializeAssertOk, hr]
        · simp [entriesAfterFirstGet, List.dropWhile, hr]
    | cons r2 rs2 =>
      have hr : r.type = .set := by
        refine h r ?_
        rw [List.dropLast_cons₂]
        exact List.mem_cons_self _ _
      have hrg : ¬(r.type = .get) := by
        rw [hr]
        decide
      have ih' := ih (fun x hx => h x (by rw [List.dropLast_cons₂]; exact List.mem_cons_of_mem _ hx)) (r :: g)
      refine ⟨?_, ?_, ?_⟩
      · rw [serializeFieldRequests, if_neg hrg, ih'.1]
        exact (List.find?_cons_of_neg _ (by simpa using hrg)).symm
      · rw [serializeAssertOk, if_neg hrg]
        exact ih'.2.1
      · rw [entriesAfterFirstGet, List.dropWhile_cons_of_pos (by simpa using hrg)]
        exact ih'.2.2

theorem scanQueue_preserves_allSet (fid : Nat) (f : WbFieldStruct) (action : FieldRequestType)
    (i : Int) (d : WbFieldData) :
    ∀ (q q' : List WbFieldRequest) (f' : WbFieldStruct), allSetRequests q →
      scanQueue fid f action i d q = some (q', f') → allSetRequests q' := by
  intro q
  induction q with
  | nil => intro q' f' _ hscan; simp [scanQueue] at hscan
  | cons r rs ih =>
    intro q' f' hq hscan
    by_cases hm : r.fieldId = fid ∧ r.type = .set ∧ r.index = i
    · simp only [scanQueue, if_pos hm] at hscan
      split at hscan
      · simp only [Option.some.injEq, Prod.mk.injEq] at hscan
        obtain ⟨h1, h2⟩ := hscan
        subst h1
        exact hq
      · split at hscan
        · split at hscan
          · simp only [Option.some.injEq, Prod.mk.injEq] at hscan
            obtain ⟨h1, h2⟩ := hscan
            subst h1
            intro x hx
            rcases List.mem_cons.mp hx with h3 | h3
            · subst h3; exact hm.2.1
            · exact hq x (List.mem_cons_of_mem r h3)
          · simp only [Option.some.injEq, Prod.mk.injEq] at hscan
            obtain ⟨h1, h2⟩ := hscan
            subst h1
            intro x hx
            rcases List.mem_cons.mp hx with h3 | h3
            · subst h3; exact hm.2.1
            · exact hq x (List.mem_cons_of_mem r h3)
        · simp only [Option.some.injEq, Prod.mk.injEq] at hscan
          obtain ⟨h1, h2⟩ := hscan
          subst h1
          exact hq
    · simp only [scanQueue, if_neg hm] at hscan
      cases hs : scanQueue fid f action i d rs with
      | none => rw [hs] at hscan; exact Option.noConfusion hscan
      | some p =>
        obtain ⟨q2, f2⟩ := p
        rw [hs] at hscan
        simp only [Option.some.injEq, Prod.mk.injEq] at hscan
        obtain ⟨h1, h2⟩ := hscan
        subst h1
        intro x hx
        rcases List.mem_cons.mp hx with h3 | h3
        · exact h3 ▸ hq r (List.mem_cons_self r rs)
        · exact ih q2 f2 (fun y hy => hq y (List.mem_cons_of_mem r hy)) hs x h3

theorem field_operation_preserves_allSet (st : SupervisorState) (fid : Nat)
    (action : FieldRequestType) (i : Int) (d : WbFieldData) (rep : StepReply)
    (h : allSetRequests st.queue) :
    allSetRequests ((field_operation_with_data st fid action i d rep).1.queue) := by
  unfold field_operation_with_data
  cases hl : lookupField st fid with
  | none => exact h
  | some f =>
    cases hscan : scanQueue fid f action i d st.queue with
    | some p =>
      obtain ⟨q', f'⟩ := p
      simp only [hscan]
      exact scanQueue_preserves_allSet fid f action i d st.queue q' f' h hscan
    | none =>
      simp only [hscan]
      by_cases ha : action = .set
      · rw [if_pos ha]
        intro x hx
        rcases List.mem_append.mp hx with h2 | h2
        · exact h x h2
        · have h3 := List.mem_singleton.mp h2
          subst h3
          show action = .set
          exact ha
      · rw [if_neg ha]
        rw [flushFieldRequests_queue]
        intro x hx
        simp at hx

theorem flushFieldRequests_is_supervisor (st : SupervisorState) (rep : StepReply) :
    (flushFieldRequests st rep).is_supervisor = st.is_supervisor := by
  unfold flushFieldRequests dispatch_node_remove_node
  cases rep.node_remove_node with
  | none => rfl
  | some p =>
    obtain ⟨ruid, puid, fname, pcount⟩ := p
    by_cases hp : (0 : Int) ≤ puid <;> simp [hp]

theorem applyContactReply_is_supervisor (st : SupervisorState) (id : Int) (rep : StepReply) :
    (applyContactReply st id rep).is_supervisor = st.is_supervisor := by
  unfold applyContactReply
  cases rep.node_get_contact_points with
  | none => rfl
  | some p =>
    obtain ⟨k, ids⟩ := p
    cases find_node_by_id id st.nodes <;> rfl

theorem node_get_from_id_is_supervisor (st : SupervisorState) (cid : Int) (allows : Bool)
    (rep : StepReply) :
    (node_get_from_id st cid allows rep).1.is_supervisor = st.is_supervisor := by
  unfold node_get_from_id
  cases find_node_by_id cid st.nodes with
  | some m => rfl
  | none =>
    cases rep.node_get_by_id with
    | none => exact flushFieldRequests_is_supervisor st rep
    | some a =>
      by_cases hc : a.uid ≠ 0 ∧ (a.is_proto_internal = false ∨ allows = true)
      · simp only [if_pos hc]
        exact flushFieldRequests_is_supervisor st rep
      · simp only [if_neg hc]
        exact flushFieldRequests_is_supervisor st rep

theorem find_map_preserving (g : WbNodeStruct → WbNodeStruct)
    (hg_id : ∀ m, (g m).id = m.id)
    (hg_st : ∀ m, (g m).contact_points_time_stamp = m.contact_points_time_stamp)
    (id : Int) :
    ∀ l : List WbNodeStruct,
      ((l.map g).find? (fun m => m.id == id)).map (fun m => m.contact_points_time_stamp) =
      (l.find? (fun m => m.id == id)).map (fun m => m.contact_points_time_stamp) := by
  intro l
  induction l with
  | nil => rfl
  | cons x xs ih =>
    by_cases hx : x.id = id
    · have h1 : ((g x).id == id) = true := by simp [hg_id, hx]
      have h2 : (x.id == id) = true := by simp [hx]
      rw [List.map_cons]
      simp only [List.find?_cons, h1, h2]
      simp [hg_st]
    · have h1 : ((g x).id == id) = false := by simp [hg_id, hx]
      have h2 : (x.id == id) = false := by simp [hx]
      rw [List.map_cons]
      simp only [List.find?_cons, h1, h2]
      exact ih

theorem add_node_to_list_stamp (uid : Int) (dn : Option String) (tag pid : Int) (ip : Bool)
    (l : List WbNodeStruct) (id : Int)
    (hsome : (find_node_by_id id l).isSome) :
    (find_node_by_id id (add_node_to_list uid dn tag pid ip l)).map
      (fun m => m.contact_points_time_stamp) =
    (find_node_by_id id l).map (fun m => m.contact_points_time_stamp) := by
  unfold add_node_to_list
  cases hu : find_node_by_id uid l with
  | some m0 =>
    refine find_map_preserving _ ?_ ?_ id l
    · intro m
      by_cases hm : m.id = uid
      · cases dn with
        | none => simp [hm]
        | some s => by_cases hd : m.def_name = some s <;> simp [hm, hd]
      · simp [hm]
    · intro m
      by_cases hm : m.id = uid
      · cases dn with
        | none => simp [hm]
        | some s => by_cases hd : m.def_name = some s <;> simp [hm, hd]
      · simp [hm]
  | none =>
    have hne : ¬(uid == id) = true := by
      intro he
      have : uid = id := by simpa using he
      subst this
      rw [hu] at hsome
      simp at hsome
    unfold find_node_by_id
    rw [List.find?_cons_of_neg _ (by simpa using hne)]

theorem node_get_from_id_stamp (st : SupervisorState) (cid : Int) (allows : Bool)
    (rep : StepReply) (id : Int)
    (hrem : rep.node_remove_node = none)
    (hsome : (find_node_by_id id st.nodes).isSome) :
    (find_node_by_id id (node_get_from_id st cid allows rep).1.nodes).map
      (fun m => m.contact_points_time_stamp) =
    (find_node_by_id id st.nodes).map (fun m => m.contact_points_time_stamp) := by
  have hfn : (flushFieldRequests st rep).nodes = st.nodes :=
    flushFieldRequests_nodes_of_no_remove st rep hrem
  unfold node_get_from_id
  cases find_node_by_id cid st.nodes with
  | some m => rfl
  | none =>
    cases rep.node_get_by_id with
    | none => rw [hfn]
    | some a =>
      by_cases hc : a.uid ≠ 0 ∧ (a.is_proto_internal = false ∨ allows = true)
      · simp only [if_pos hc]
        show (find_node_by_id id (add_node_to_list a.uid a.def_name a.tag a.parent_uid a.is_proto
          (flushFieldRequests st rep).nodes)).map (fun m => m.contact_points_time_stamp) = _
        rw [hfn] at *
        rw [add_node_to_list_stamp a.uid a.def_name a.tag a.parent_uid a.is_proto st.nodes id hsome]
      · simp only [if_neg hc]
        rw [hfn]

theorem contact_refresh_state (st : SupervisorState) (id : Int) (node : WbNodeStruct)
    (t : ℚ) (rep : StepReply)
    (hn : find_node_by_id id st.nodes = some node)
    (hrem : rep.node_remove_node = none) :
    find_node_by_id id
      (applyContactReply
        (flushFieldRequests (updateNode st id { node with contact_points_time_stamp := t }) rep)
        id rep).nodes =
      some (match rep.node_get_contact_points with
        | some (k, ids) =>
          { node with
            contact_points_time_stamp := t
            number_of_contact_points := k
            contact_points_present := decide (0 < k)
            node_id_per_contact_points := if 0 < k then ids else [] }
        | none => { node with contact_points_time_stamp := t }) := by
  have hid : node.id = id := find_node_by_id_id_eq hn
  have h1 : find_node_by_id id
      (updateNode st id { node with contact_points_time_stamp := t }).nodes =
      some { node with contact_points_time_stamp := t } :=
    find_node_updateNode st id _ hid (by rw [hn]; rfl)
  have h2 := flushFieldRequests_nodes_of_no_remove
    (updateNode st id { node with contact_points_time_stamp := t }) rep hrem
  have h3 : find_node_by_id id
      (flushFieldRequests (updateNode st id { node with contact_points_time_stamp := t }) rep).nodes =
      some { node with contact_points_time_stamp := t } := by
    unfold find_node_by_id
    rw [h2]
    exact h1
  unfold applyContactReply
  cases hrc : rep.node_get_contact_points with
  | none => simpa [hrc] using h3
  | some p =>
    obtain ⟨k, ids⟩ := p
    simp only [hrc, h3]
    exact find_node_updateNode _ id _ hid (by rw [h3]; rfl)

theorem contact_point_node_wire (st : SupervisorState) (id : Int) (idx : Int) (t : ℚ)
    (rep rep2 : StepReply) (hsup : st.is_supervisor = true) :
    (wb_supervisor_node_get_contact_point_node st (some id) idx t rep rep2).2.2.1 =
      (match find_node_by_id id st.nodes with
       | some m => decide (t > m.contact_points_time_stamp)
       | none => false) := by
  unfold wb_supervisor_node_get_contact_point_node
  rw [hsup]
  cases hm : find_node_by_id id st.nodes with
  | none => simp [hm]
  | some m =>
    simp only [hm, Bool.not_true, Bool.false_eq_true, if_false]
    split
    · rfl
    · split
      · rfl
      · rfl

theorem get_number_of_contact_points_eval_pos (st : SupervisorState) (id : Int)
    (node : WbNodeStruct) (incl : Bool) (t : ℚ) (rep : StepReply)
    (hsup : st.is_supervisor = true)
    (hn : find_node_by_id id st.nodes = some node)
    (hgt : t > node.contact_points_time_stamp) :
    wb_supervisor_node_get_number_of_contact_points st (some id) incl t rep =
      (applyContactReply (flushFieldRequests
          (updateNode st id { node with contact_points_time_stamp := t }) rep) id rep,
       (match find_node_by_id id (applyContactReply (flushFieldRequests
          (updateNode st id { node with contact_points_time_stamp := t }) rep) id rep).nodes with
        | some m => m.number_of_contact_points
        | none => -1), true) := by
  unfold wb_supervisor_node_get_number_of_contact_points
  rw [hsup]
  simp only [Bool.not_true, Bool.false_eq_true, if_false, hn]
  rw [if_pos hgt]

theorem get_number_of_contact_points_eval_neg (st : SupervisorState) (id : Int)
    (node : WbNodeStruct) (incl : Bool) (t : ℚ) (rep : StepReply)
    (hsup : st.is_supervisor = true)
    (hn : find_node_by_id id st.nodes = some node)
    (hgt : ¬ t > node.contact_points_time_stamp) :
    wb_supervisor_node_get_number_of_contact_points st (some id) incl t rep =
      (st, node.number_of_contact_points, false) := by
  unfold wb_supervisor_node_get_number_of_contact_points
  rw [hsup]
  simp only [Bool.not_true, Bool.false_eq_true, if_false, hn]
  rw [if_neg hgt]

theorem get_contact_point_eval_pos (st : SupervisorState) (id : Int)
    (node : WbNodeStruct) (idx : Int) (t : ℚ) (rep : StepReply)
    (hsup : st.is_supervisor = true)
    (hn : find_node_by_id id st.nodes = some node)
    (hgt : t > node.contact_points_time_stamp) :
    wb_supervisor_node_get_contact_point st (some id) idx t rep =
      (applyContactReply (flushFieldRequests
          (updateNode st id { node with contact_points_time_stamp := t }) rep) id rep,
       (match find_node_by_id id (applyContactReply (flushFieldRequests
          (updateNode st id { node with contact_points_time_stamp := t }) rep) id rep).nodes with
        | some m =>
          if m.contact_points_present ∧ idx < m.number_of_contact_points then some (3 * idx) else none
        | none => none), true) := by
  unfold wb_supervisor_node_get_contact_point
  rw [hsup]
  simp only [Bool.not_true, Bool.false_eq_true, if_false, hn]
  rw [if_pos hgt]

theorem get_contact_point_eval_neg (st : SupervisorState) (id : Int)
    (node : WbNodeStruct) (idx : Int) (t : ℚ) (rep : StepReply)
    (hsup : st.is_supervisor = true)
    (hn : find_node_by_id id st.nodes = some node)
    (hgt : ¬ t > node.contact_points_time_stamp) :
    wb_supervisor_node_get_contact_point st (some id) idx t rep =
      (st, (if node.contact_points_present ∧ idx < node.number_of_contact_points
            then some (3 * idx) else none), false) := by
  unfold wb_supervisor_node_get_contact_point
  rw [hsup]
  simp only [Bool.not_true, Bool.false_eq_true, if_false, hn]
  rw [if_neg hgt]

theorem contact_point_node_state_is_supervisor (st : SupervisorState) (id : Int) (idx : Int)
    (t : ℚ) (rep rep2 : StepReply) :
    (wb_supervisor_node_get_contact_point_node st (some id) idx t rep rep2).1.is_supervisor =
      st.is_supervisor := by
  unfold wb_supervisor_node_get_contact_point_node
  cases hs : st.is_supervisor with
  | false => simp [hs]
  | true =>
    simp only [hs, Bool.not_true, Bool.false_eq_true, if_false]
    cases hm : find_node_by_id id st.nodes with
    | none => exact hs
    | some node =>
      simp only [hm]
      by_cases hgt : t > node.contact_points_time_stamp
      · have hd : decide (t > node.contact_points_time_stamp) = true := decide_eq_true hgt
        simp only [hd, if_pos rfl]
        have hsup1 : (applyContactReply (flushFieldRequests
            (updateNode st id { node with contact_points_time_stamp := t }) rep) id
            rep).is_supervisor = st.is_supervisor := by
          rw [applyContactReply_is_supervisor, flushFieldRequests_is_supervisor]
          rfl
        split
        · exact hsup1.trans hs
        · split
          · exact hsup1.trans hs
          · exact (node_get_from_id_is_supervisor _ _ _ _).trans (hsup1.trans hs)
      · have hd : decide (t > node.contact_points_time_stamp) = false := decide_eq_false hgt
        simp only [hd, Bool.false_eq_true, if_false]
        split
        · exact hs
        · split
          · exact hs
          · exact (node_get_from_id_is_supervisor _ _ _ _).trans hs

theorem contact_point_node_state_stamp (st : SupervisorState) (id : Int) (node : WbNodeStruct)
    (idx : Int) (t : ℚ) (rep rep2 : StepReply)
    (hsup : st.is_supervisor = true)
    (hn : find_node_by_id id st.nodes = some node)
    (hrem : rep.node_remove_node = none)
    (hrem2 : rep2.node_remove_node = none) :
    (find_node_by_id id
      (wb_supervisor_node_get_contact_point_node st (some id) idx t rep rep2).1.nodes).map
      (fun m => m.contact_points_time_stamp) =
      some (if t > node.contact_points_time_stamp then t
            else node.contact_points_time_stamp) := by
  have hfindS := contact_refresh_state st id node t rep hn hrem
  unfold wb_supervisor_node_get_contact_point_node
  rw [hsup]
  simp only [Bool.not_true, Bool.false_eq_true, if_false, hn]
  by_cases hgt : t > node.contact_points_time_stamp
  · have hd : decide (t > node.contact_points_time_stamp) = true := decide_eq_true hgt
    simp only [hd, if_pos rfl, if_pos hgt, hfindS]
    have hstamp1 : (find_node_by_id id (applyContactReply (flushFieldRequests
        (updateNode st id { node with contact_points_time_stamp := t }) rep) id rep).nodes).map
        (fun m => m.contact_points_time_stamp) = some t := by
      rcases hrc : rep.node_get_contact_points with _ | ⟨k, ids⟩ <;>
        simp only [hrc] at hfindS <;> rw [hfindS] <;> rfl
    split
    · exact hstamp1
    · split
      · exact hstamp1
      · dsimp only
        rw [node_get_from_id_stamp _ _ _ _ _ hrem2
          (by rw [if_pos trivial]; rw [hfindS]; rfl)]
        exact hstamp1
  · have hd : decide (t > node.contact_points_time_stamp) = false := decide_eq_false hgt
    simp only [hd, Bool.false_eq_true, if_false, if_neg hgt, hn]
    have hstamp0 : (find_node_by_id id st.nodes).map (fun m => m.contact_points_time_stamp) =
        some node.contact_points_time_stamp := by
      rw [hn]
      rfl
    split
    · exact hstamp0
    · dsimp only
      rw [node_get_from_id_stamp _ _ _ _ _ hrem2 (by rw [hn]; rfl)]
      exact hstamp0

theorem set_then_get_field_operation (st : SupervisorState) (n : Nat) (f : WbFieldStruct)
    (v : ℚ) (rep : StepReply)
    (hf : lookupField st n = some f)
    (hty : f.type = .sfFloat)
    (hcount : f.count = -1)
    (hwf : ∀ r ∈ st.queue, r.fieldId = n → r.is_string = false) :
    (field_operation_with_data st n .set (-1) (.sf_float v) emptyReply).2 = false ∧
    lookupField (field_operation_with_data st n .set (-1) (.sf_float v) emptyReply).1 n = some f ∧
    (field_operation_with_data st n .set (-1) (.sf_float v) emptyReply).1.is_supervisor =
      st.is_supervisor ∧
    (field_operation_with_data (field_operation_with_data st n .set (-1) (.sf_float v) emptyReply).1
      n .get (-1) (.sf_string none) rep).2 = false ∧
    (field_operation_with_data (field_operation_with_data st n .set (-1) (.sf_float v) emptyReply).1
      n .get (-1) (.sf_string none) rep).1.queue =
      (field_operation_with_data st n .set (-1) (.sf_float v) emptyReply).1.queue ∧
    lookupField (field_operation_with_data
      (field_operation_with_data st n .set (-1) (.sf_float v) emptyReply).1
      n .get (-1) (.sf_string none) rep).1 n = some { f with data := .sf_float v } ∧
    (field_operation_with_data (field_operation_with_data st n .set (-1) (.sf_float v) emptyReply).1
      n .get (-1) (.sf_string none) rep).1.sent_field_get_request =
      st.sent_field_get_request := by
  have hisSome : (lookupField st n).isSome := by rw [hf]; rfl
  cases hscan : scanQueue n f .set (-1) (.sf_float v) st.queue with
  | none =>
    have hreq : create_field_request f n .set (-1) (.sf_float v) true =
        { type := .set, index := -1, is_string := false, data := .sf_float v, fieldId := n } := by
      simp [create_field_request, hcount, hty]
    have hs1 : field_operation_with_data st n .set (-1) (.sf_float v) emptyReply =
        ({ st with queue := st.queue ++
          [{ type := .set, index := -1, is_string := false, data := .sf_float v, fieldId := n }] },
          false) := by
      simp [field_operation_with_data, hf, hscan, hreq]
    have hlookA : lookupField { st with queue := st.queue ++
        [{ type := .set, index := -1, is_string := false, data := .sf_float v, fieldId := n }] } n =
        some f := hf
    have hnomatch := (scanQueue_eq_none_iff n f .set (-1) (.sf_float v) st.queue).mp hscan
    have hget := scanQueue_append_get n f (-1) (.sf_string none) st.queue
      { type := .set, index := -1, is_string := false, data := .sf_float v, fieldId := n }
      hnomatch ⟨rfl, rfl, rfl⟩ rfl
    have hs2 : field_operation_with_data ({ st with queue := st.queue ++
        [{ type := .set, index := -1, is_string := false, data := .sf_float v, fieldId := n }] })
        n .get (-1) (.sf_string none) rep =
        ({ updateField { st with queue := st.queue ++
            [{ type := .set, index := -1, is_string := false, data := .sf_float v, fieldId := n }] }
            n { f with data := .sf_float v } with
           queue := st.queue ++
            [{ type := .set, index := -1, is_string := false, data := .sf_float v, fieldId := n }] },
          false) := by
      simp [field_operation_with_data, hlookA, hget]
    simp only [hs1, hs2]
    refine ⟨by trivial, hf, by trivial, by trivial, by trivial, ?_, by trivial⟩
    exact lookupField_updateField _ n _ (by rw [hlookA]; rfl)
  | some p =>
    obtain ⟨q', f2⟩ := p
    obtain ⟨hf2, hget⟩ :=
      scanQueue_set_then_get n f (-1) v (.sf_string none) st.queue hwf q' f2 hscan
    subst hf2
    have hs1 : field_operation_with_data st n .set (-1) (.sf_float v) emptyReply =
        ({ updateField st n f2 with queue := q' }, false) := by
      simp [field_operation_with_data, hf, hscan]
    have hlookA : lookupField { updateField st n f2 with queue := q' } n = some f2 :=
      lookupField_updateField st n f2 hisSome
    have hs2 : field_operation_with_data ({ updateField st n f2 with queue := q' })
        n .get (-1) (.sf_string none) rep =
        ({ updateField { updateField st n f2 with queue := q' } n { f2 with data := .sf_float v } with
           queue := q' }, false) := by
      simp [field_operation_with_data, hlookA, hget]
    simp only [hs1, hs2]
    refine ⟨by trivial, hlookA, by trivial, by trivial, by trivial, ?_, by trivial⟩
    exact lookupField_updateField _ n _ (by rw [hlookA]; rfl)

/-! Claim theorems. -/

/-- C4: MF index validation and normalization.  For an MF field with element
count `count`, an insert (importing) operation accepts exactly the indices in
`[-(count+1), count]` and a set/get/remove operation accepts exactly those in
`[-count, count-1]`; an accepted negative index `i` is replaced by
`i + count + 1` when inserting and by `i + count` otherwise, and an accepted
non-negative index is passed through; an out-of-range index makes
`check_field` fail so the operation is dropped with nothing enqueued (shown
on `wb_supervisor_field_set_mf_float`: the state is returned unchanged). -/
theorem mf_index_validation_and_normalization (count i : Int) :
    ((checkIndexMF count true i).isSome ↔ (-(count + 1) ≤ i ∧ i ≤ count)) ∧
    ((checkIndexMF count false i).isSome ↔ (-count ≤ i ∧ i ≤ count - 1)) ∧
    (i < 0 → -(count + 1) ≤ i → checkIndexMF count true i = some (i + count + 1)) ∧
    (i < 0 → -count ≤ i → checkIndexMF count false i = some (i + count)) ∧
    (0 ≤ i → i ≤ count → checkIndexMF count true i = some i) ∧
    (0 ≤ i → i ≤ count - 1 → checkIndexMF count false i = some i) ∧
    (∀ st n f v, lookupField st n = some f → f.count = count →
      ¬(-count ≤ i ∧ i ≤ count - 1) →
      wb_supervisor_field_set_mf_float st (some n) i v = (st, false)) := by
  refine ⟨checkIndexMF_importing_isSome_iff count i, checkIndexMF_nonimporting_isSome_iff count i,
    fun h0 hlo => checkIndexMF_importing_neg count i h0 hlo,
    fun h0 hlo => checkIndexMF_nonimporting_neg count i h0 hlo,
    fun h0 hhi => checkIndexMF_importing_nonneg count i h0 hhi,
    fun h0 hhi => checkIndexMF_nonimporting_nonneg count i h0 hhi, ?_⟩
  intro st n f v hf hcount hrange
  unfold wb_supervisor_field_set_mf_float
  cases hc : check_field st (some n) .mfFloat true (some i) false true with
  | none => rfl
  | some oi =>
    cases oi with
    | none => rfl
    | some i2 =>
      exfalso
      have hcim := check_field_mf_some_implies st n f .mfFloat true i false true i2 hf hc
      have hsome : (checkIndexMF f.count false i).isSome := by rw [hcim]; rfl
      rw [hcount] at hsome
      exact hrange ((checkIndexMF_nonimporting_isSome_iff count i).mp hsome)

/-- C4 witness: with count 3, inserting accepts index -1 (normalized to 3) and
setting accepts -1 (normalized to 2) but rejects 3; a set at index 3 on a
3-element MF_FLOAT field is dropped with the state unchanged. -/
theorem mf_index_validation_witness :
    checkIndexMF 3 true (-1) = some 3 ∧
    checkIndexMF 3 false (-1) = some 2 ∧
    (checkIndexMF 3 false 3).isSome = false ∧
    wb_supervisor_field_set_mf_float stC4w (some 0) 3 (5 : ℚ) = (stC4w, false) := by
  have h := mf_index_validation_and_normalization 3 (-1)
  have h3 := mf_index_validation_and_normalization 3 3
  refine ⟨?_, ?_, ?_, ?_⟩
  · have := h.2.2.1 (by decide) (by decide)
    simpa using this
  · have := h.2.2.2.1 (by decide) (by decide)
    simpa using this
  · exact Bool.eq_false_iff.mpr (fun hs => absurd (h3.2.1.mp hs) (by decide))
  · exact h3.2.2.2.2.2.2 stC4w 0 fC4w 5 rfl rfl (by decide)

/-- C10: every request built by `create_and_append_field_request` stores the
caller's `action` as its type (the assignment embedded in the `is_string`
initializer clobbers only the dead local), and `is_string` is true exactly
when the field type is `WB_SF_STRING` or `WB_MF_STRING`, or the action is
`IMPORT_FROM_STRING`, or the field type is `WB_MF_NODE` — in particular it is
true for GET, SET and REMOVE requests on an MF_NODE field. -/
theorem create_field_request_type_and_is_string (f : WbFieldStruct) (fid : Nat)
    (action : FieldRequestType) (index : Int) (data : WbFieldData) (clamp_index : Bool) :
    (create_field_request f fid action index data clamp_index).type = action ∧
    ((create_field_request f fid action index data clamp_index).is_string = true ↔
      (f.type = .sfString ∨ f.type = .mfString ∨ action = .importFromString ∨
        f.type = .mfNode)) := by
  refine ⟨rfl, ?_⟩
  simp only [create_field_request, Bool.or_eq_true, decide_eq_true_eq]
  tauto

/-- C7: the extension gate of `wb_supervisor_field_import_sf_node` is
inverted — `if (strcmp(dot, ".wbo") == 0)` rejects exactly the `.wbo`
extension its own diagnostic claims to be the only supported one — so a
`.wbo` filename is refused as a no-op while a `.wrl` filename passes the gate
and is enqueued and flushed. -/
theorem import_sf_node_rejects_wbo_accepts_wrl :
    wb_supervisor_field_import_sf_node stC7 (some 0) (some "box.wbo") emptyReply = (stC7, false) ∧
    (wb_supervisor_field_import_sf_node stC7 (some 0) (some "box.wrl") emptyReply).2 = true := by
  constructor
  · rfl
  · rfl

/-- C9: `wb_supervisor_field_remove_mf(NULL, i)` and
`wb_supervisor_field_remove_sf(NULL)` dereference the NULL field pointer
(`field->count`, `field->data.sf_node_uid`) before `check_field` can reject
it, which is undefined behavior rather than the documented diagnostic no-op;
an operation that validates first, such as `wb_supervisor_field_get_sf_float`,
returns its typed sentinel with the state unchanged. -/
theorem null_field_remove_dereferences :
    wb_supervisor_field_remove_mf stC9 none 0 emptyReply = CallResult.crash ∧
    wb_supervisor_field_remove_sf stC9 none emptyReply = CallResult.crash ∧
    wb_supervisor_field_get_sf_float stC9 none emptyReply = (stC9, 0, false) :=
  ⟨rfl, rfl, rfl⟩

/-- C5: MF_NODE remove count refresh.  Under the reachable-state hypotheses
(registered writable field, nonzero count, in-range index, empty sent slot,
only SETs queued and none on this field), `wb_supervisor_field_remove_mf`
decrements the local count by exactly one when the field type is not
`WB_MF_NODE` (no NODE_REMOVE_NODE reply accompanies a plain value removal);
when the type is `WB_MF_NODE` the API does not decrement: with no reply the
count is unchanged, and with a NODE_REMOVE_NODE reply whose parent is this
field (found first in the registry, keys distinct) the count is set to the
`parent_field_count` the reply carries. -/
theorem remove_mf_count_refresh
    (st : SupervisorState) (n : Nat) (f : WbFieldStruct) (index : Int) (rep : StepReply)
    (hsup : st.is_supervisor = true)
    (hf : lookupField st n = some f)
    (hpi : f.is_proto_internal = false)
    (hc0 : f.count ≠ 0)
    (hlo : -f.count ≤ index) (hhi : index ≤ f.count - 1)
    (hsent : st.sent_field_get_request = none)
    (hqset : ∀ r ∈ st.queue, r.type = .set)
    (hqn : ∀ r ∈ st.queue, r.fieldId ≠ n) :
    (f.type ≠ .mfNode → rep.node_remove_node = none →
      ∃ st2, wb_supervisor_field_remove_mf st (some n) index rep = .ok st2 ∧
        (lookupField st2 n).map WbFieldStruct.count = some (f.count - 1)) ∧
    (f.type = .mfNode → rep.node_remove_node = none →
      ∃ st2, wb_supervisor_field_remove_mf st (some n) index rep = .ok st2 ∧
        (lookupField st2 n).map WbFieldStruct.count = some f.count) ∧
    (f.type = .mfNode →
      ∀ ruid pcount, rep.node_remove_node = some (ruid, f.node_unique_id, f.name, pcount) →
      0 ≤ f.node_unique_id →
      find_field f.name f.node_unique_id st.fields = some (n, f) →
      (st.fields.map Prod.fst).Nodup →
      ∃ st2, wb_supervisor_field_remove_mf st (some n) index rep = .ok st2 ∧
        (lookupField st2 n).map WbFieldStruct.count = some pcount) := by
  obtain ⟨i2, hi2⟩ : ∃ i2, checkIndexMF f.count false index = some i2 :=
    Option.isSome_iff_exists.mp
      ((checkIndexMF_nonimporting_isSome_iff f.count index).mpr ⟨hlo, hhi⟩)
  have hchk : check_field st (some n) .mf false (some index) false true = some (some i2) := by
    rw [check_field_mf_eval st n f index hsup hf hpi, hi2]
    rfl
  have hscan : scanQueue n f .remove i2 (.sf_string none) st.queue = none :=
    (scanQueue_eq_none_iff n f .remove i2 (.sf_string none) st.queue).mpr
      (fun r hr hcon => (hqn r hr) hcon.1)
  have hopEq : field_operation st n .remove i2 rep =
      (flushFieldRequests
        { st with queue := st.queue ++ [create_field_request f n .remove i2 (.sf_string none) true] }
        rep, true) := by
    simp only [field_operation, field_operation_with_data, hf, hscan]
    rw [if_neg (by decide : ¬(FieldRequestType.remove = FieldRequestType.set))]
  have hq1 : ∀ r ∈ ({ st with queue := st.queue ++
      [create_field_request f n .remove i2 (.sf_string none) true] } : SupervisorState).queue,
      r.type ≠ .get := by
    intro r hr
    rcases List.mem_append.mp hr with h2 | h2
    · rw [hqset r h2]
      decide
    · have h3 := List.mem_singleton.mp h2
      subst h3
      show ¬(FieldRequestType.remove = FieldRequestType.get)
      decide
  have hentry : wb_supervisor_field_remove_mf st (some n) index rep =
      (match lookupField (flushFieldRequests
          { st with queue := st.queue ++
            [create_field_request f n .remove i2 (.sf_string none) true] } rep) n with
       | none => CallResult.ok (flushFieldRequests
          { st with queue := st.queue ++
            [create_field_request f n .remove i2 (.sf_string none) true] } rep)
       | some f1 =>
         if f1.type = .mfNode then
           CallResult.ok (flushFieldRequests
            { st with queue := st.queue ++
              [create_field_request f n .remove i2 (.sf_string none) true] } rep)
         else
           CallResult.ok (updateField (flushFieldRequests
            { st with queue := st.queue ++
              [create_field_request f n .remove i2 (.sf_string none) true] } rep) n
            { f1 with count := f1.count - 1 })) := by
    simp only [wb_supervisor_field_remove_mf, hf, if_neg hc0, hchk, hopEq]
  refine ⟨?_, ?_, ?_⟩
  · intro hty hrem
    have hfields := flushFieldRequests_fields_of_no_get
      { st with queue := st.queue ++
        [create_field_request f n .remove i2 (.sf_string none) true] } rep hq1 hsent hrem
    have hlookF : lookupField (flushFieldRequests
        { st with queue := st.queue ++
          [create_field_request f n .remove i2 (.sf_string none) true] } rep) n = some f := by
      unfold lookupField
      rw [hfields]
      exact hf
    rw [hentry]
    simp only [hlookF]
    rw [if_neg hty]
    refine ⟨_, rfl, ?_⟩
    rw [lookupField_updateField _ n _ (by rw [hlookF]; rfl)]
    rfl
  · intro hty hrem
    have hfields := flushFieldRequests_fields_of_no_get
      { st with queue := st.queue ++
        [create_field_request f n .remove i2 (.sf_string none) true] } rep hq1 hsent hrem
    have hlookF : lookupField (flushFieldRequests
        { st with queue := st.queue ++
          [create_field_request f n .remove i2 (.sf_string none) true] } rep) n = some f := by
      unfold lookupField
      rw [hfields]
      exact hf
    rw [hentry]
    simp only [hlookF]
    rw [if_pos hty]
    refine ⟨_, rfl, ?_⟩
    rw [hlookF]
    rfl
  · intro hty ruid pcount hrem hpuid hffind hnodup
    have hfields := flushFieldRequests_fields_of_remove
      { st with queue := st.queue ++
        [create_field_request f n .remove i2 (.sf_string none) true] } rep
      ruid f.node_unique_id f.name pcount hq1 hsent hrem hpuid
    have hlookF : lookupField (flushFieldRequests
        { st with queue := st.queue ++
          [create_field_request f n .remove i2 (.sf_string none) true] } rep) n =
        some { f with count := pcount } := by
      unfold lookupField
      rw [hfields]
      exact find_field_set_count f.name f.node_unique_id pcount n f st.fields hnodup hffind
    rw [hentry]
    simp only [hlookF]
    rw [if_pos (by exact hty : ({ f with count := pcount } : WbFieldStruct).type = .mfNode)]
    refine ⟨_, rfl, ?_⟩
    rw [hlookF]
    rfl

/-- C5 witness: removing index 1 from a 3-element MF_FLOAT field (no
NODE_REMOVE_NODE reply) leaves the local count at 2. -/
theorem remove_mf_count_refresh_witness :
    ∃ st2, wb_supervisor_field_remove_mf stC5w (some 2) 1 emptyReply = .ok st2 ∧
      (lookupField st2 2).map WbFieldStruct.count = some 2 := by
  have h := remove_mf_count_refresh stC5w 2 fC5w 1 emptyReply rfl rfl rfl (by decide)
    (by decide) (by decide) rfl
    (fun r hr => absurd hr (List.not_mem_nil r))
    (fun r hr => absurd hr (List.not_mem_nil r))
  exact h.1 (by decide) rfl

/-- C6: after `remove_node_from_list uid` on a registry with distinct ids and
a non-negative uid, no node with that id remains, no remaining node keeps
`parent_id = uid` (it was reset to -1), and every other node survives:
unchanged when its parent was not the removed node, and with only its
`parent_id` reset to -1 otherwise. -/
theorem remove_node_orphan_reset (uid : Int) (l : List WbNodeStruct)
    (hid : 0 ≤ uid) (hnodup : (l.map WbNodeStruct.id).Nodup) :
    (∀ n ∈ remove_node_from_list uid l, n.id ≠ uid) ∧
    (∀ n ∈ remove_node_from_list uid l, n.parent_id ≠ uid) ∧
    (∀ m ∈ l, m.id ≠ uid →
      (m.parent_id = uid → { m with parent_id := -1 } ∈ remove_node_from_list uid l) ∧
      (m.parent_id ≠ uid → m ∈ remove_node_from_list uid l)) := by
  unfold remove_node_from_list
  refine ⟨?_, ?_, ?_⟩
  · intro n hn
    obtain ⟨m, hm, hmap⟩ := List.mem_map.mp hn
    have hm' := id_ne_uid_of_mem_eraseFirstNodeById hnodup hm
    subst hmap
    by_cases hp : m.parent_id = uid
    · simpa [hp] using hm'
    · simpa [hp] using hm'
  · intro n hn
    obtain ⟨m, hm, hmap⟩ := List.mem_map.mp hn
    subst hmap
    by_cases hp : m.parent_id = uid
    · simp only [if_pos hp]
      intro hcon
      omega
    · rw [if_neg hp]
      exact hp
  · intro m hm hne
    constructor
    · intro hp
      refine List.mem_map.mpr ⟨m, mem_eraseFirstNodeById_of_ne hne hm, ?_⟩
      rw [if_pos hp]
    · intro hp
      refine List.mem_map.mpr ⟨m, mem_eraseFirstNodeById_of_ne hne hm, ?_⟩
      rw [if_neg hp]

set_option maxRecDepth 8000

/-- C1: read-your-writes coalescing.  After `wb_supervisor_field_set_sf_float`
on an SF_FLOAT field with a finite value `|v| ≤ FLT_MAX`, an immediately
following `wb_supervisor_field_get_sf_float` finds the queued SET on the same
(field, index), copies its payload into the field's cached data and returns
exactly `v`, without flushing and without changing the pending queue (hence
its length); the sent-GET slot is also untouched.  Hypotheses are the
reachable-state facts: the handle is registered, the field is a writable
SF_FLOAT (count -1, as FIELD_GET_FROM_NAME creates SF fields), and queued
requests on this field carry `is_string = false` (as
`create_and_append_field_request` computes for non-string SF types). -/
theorem set_then_get_sf_float_read_your_writes
    (st : SupervisorState) (n : Nat) (f : WbFieldStruct) (v : ℚ) (rep : StepReply)
    (hsup : st.is_supervisor = true)
    (hf : lookupField st n = some f)
    (hty : f.type = .sfFloat)
    (hpi : f.is_proto_internal = false)
    (hcount : f.count = -1)
    (hwf : ∀ r ∈ st.queue, r.fieldId = n → r.is_string = false)
    (hv : check_float v = true) :
    (wb_supervisor_field_get_sf_float
      (wb_supervisor_field_set_sf_float st (some n) v).1 (some n) rep).2.1 = v ∧
    (wb_supervisor_field_get_sf_float
      (wb_supervisor_field_set_sf_float st (some n) v).1 (some n) rep).2.2 = false ∧
    (wb_supervisor_field_get_sf_float
      (wb_supervisor_field_set_sf_float st (some n) v).1 (some n) rep).1.queue =
      (wb_supervisor_field_set_sf_float st (some n) v).1.queue ∧
    (lookupField (wb_supervisor_field_get_sf_float
      (wb_supervisor_field_set_sf_float st (some n) v).1 (some n) rep).1 n).map
      WbFieldStruct.data = some (.sf_float v) ∧
    (wb_supervisor_field_get_sf_float
      (wb_supervisor_field_set_sf_float st (some n) v).1
      (some n) rep).1.sent_field_get_request = st.sent_field_get_request := by
  have hchk1 : check_field st (some n) .sfFloat true none false true = some none :=
    check_field_sf_ok st n f .sfFloat true hsup hf hpi hty rfl
  have hsetEq : wb_supervisor_field_set_sf_float st (some n) v =
      field_operation_with_data st n .set (-1) (.sf_float v) emptyReply := by
    simp only [wb_supervisor_field_set_sf_float, hchk1, hv, if_true, ite_true]
  obtain ⟨hfl1, hlook1, hsup1, hfl2, hq2, hlook2, hsent2⟩ :=
    set_then_get_field_operation st n f v rep hf hty hcount hwf
  have hchk2 : check_field (field_operation_with_data st n .set (-1) (.sf_float v) emptyReply).1
      (some n) .sfFloat true none false false = some none :=
    check_field_sf_ok _ n f .sfFloat false (by rw [hsup1]; exact hsup) hlook1 hpi hty rfl
  rw [hsetEq]
  simp only [wb_supervisor_field_get_sf_float, hchk2, field_operation]
  refine ⟨?_, hfl2, hq2, ?_, hsent2⟩
  · simp only [fieldDataOf, hlook2]
    rfl
  · rw [hlook2]
    rfl

/-- C1 witness: on a one-field registry with an empty queue, setting the
SF_FLOAT field to 3 and immediately getting it returns 3 with no flush. -/
theorem set_then_get_sf_float_witness :
    (wb_supervisor_field_get_sf_float
      (wb_supervisor_field_set_sf_float stC1w (some 0) 3).1 (some 0) emptyReply).2.1 = 3 ∧
    (wb_supervisor_field_get_sf_float
      (wb_supervisor_field_set_sf_float stC1w (some 0) 3).1 (some 0) emptyReply).2.2 = false := by
  have h := set_then_get_sf_float_read_your_writes stC1w 0 fC1w 3 emptyReply rfl rfl rfl rfl rfl
    (fun r hr => absurd hr (List.not_mem_nil r))
    (by simp only [check_float, FLT_MAX, Bool.and_eq_true, Bool.not_eq_true',
          decide_eq_false_iff_not]
        norm_num)
  exact ⟨h.1, h.2.1⟩

/-- C2: pending-queue discipline.  Starting from a queue holding only SET
requests (the invariant between user-API calls), every modelled public field
operation leaves the queue holding only SET requests: a coalesced or appended
SET keeps the invariant, and every GET / IMPORT / IMPORT_FROM_STRING / REMOVE
that reaches the queue forces an immediate flush inside the same call, which
drains the queue entirely — so no such request survives an API boundary. -/
theorem pending_queue_only_sets (st : SupervisorState) (rep : StepReply)
    (h : allSetRequests st.queue) :
    (∀ fid action index data,
      allSetRequests ((field_operation_with_data st fid action index data rep).1.queue)) ∧
    (∀ fid v, allSetRequests ((wb_supervisor_field_set_sf_float st fid v).1.queue)) ∧
    (∀ fid rep2, allSetRequests ((wb_supervisor_field_get_sf_float st fid rep2).1.queue)) ∧
    (∀ fid i v, allSetRequests ((wb_supervisor_field_set_mf_float st fid i v).1.queue)) ∧
    (∀ fid i rep2 st2, wb_supervisor_field_remove_mf st fid i rep2 = .ok st2 →
      allSetRequests st2.queue) ∧
    (∀ fid rep2 st2, wb_supervisor_field_remove_sf st fid rep2 = .ok st2 →
      allSetRequests st2.queue) ∧
    (∀ fid fn rep2, allSetRequests ((wb_supervisor_field_import_sf_node st fid fn rep2).1.queue)) := by
  refine ⟨?_, ?_, ?_, ?_, ?_, ?_, ?_⟩
  · intro fid action index data
    exact field_operation_preserves_allSet st fid action index data rep h
  · intro fid v
    unfold wb_supervisor_field_set_sf_float
    cases fid with
    | none => exact h
    | some n =>
      cases hc : check_field st (some n) .sfFloat true none false true with
      | none => simp only [hc]; exact h
      | some oi =>
        simp only [hc]
        by_cases hv : check_float v
        · rw [if_pos hv]
          exact field_operation_preserves_allSet st n .set (-1) (.sf_float v) emptyReply h
        · rw [if_neg hv]
          exact h
  · intro fid rep2
    unfold wb_supervisor_field_get_sf_float
    cases fid with
    | none => exact h
    | some n =>
      cases hc : check_field st (some n) .sfFloat true none false false with
      | none => simp only [hc]; exact h
      | some oi =>
        simp only [hc]
        exact field_operation_preserves_allSet st n .get (-1) (.sf_string none) rep2 h
  · intro fid i v
    unfold wb_supervisor_field_set_mf_float
    cases fid with
    | none => exact h
    | some n =>
      cases hc : check_field st (some n) .mfFloat true (some i) false true with
      | none => simp only [hc]; exact h
      | some oi =>
        cases oi with
        | none => simp only [hc]; exact h
        | some i2 =>
          simp only [hc]
          by_cases hv : check_float v
          · rw [if_pos hv]
            exact field_operation_preserves_allSet st n .set i2 (.sf_float v) emptyReply h
          · rw [if_neg hv]
            exact h
  · intro fid i rep2 st2 hok
    unfold wb_supervisor_field_remove_mf at hok
    cases fid with
    | none => exact CallResult.noConfusion hok
    | some n =>
      cases hl : lookupField st n with
      | none =>
        simp only [hl] at hok
        exact CallResult.noConfusion hok
      | some f =>
        simp only [hl] at hok
        by_cases h0 : f.count = 0
        · rw [if_pos h0] at hok
          injection hok with h2
          subst h2
          exact h
        · rw [if_neg h0] at hok
          cases hc : check_field st (some n) .mf false (some i) false true with
          | none =>
            simp only [hc] at hok
            injection hok with h2
            subst h2
            exact h
          | some oi =>
            cases oi with
            | none =>
              simp only [hc] at hok
              injection hok with h2
              subst h2
              exact h
            | some i2 =>
              simp only [hc] at hok
              cases hl2 : lookupField (field_operation st n .remove i2 rep2).1 n with
              | none =>
                simp only [hl2] at hok
                injection hok with h2
                subst h2
                exact field_operation_preserves_allSet st n .remove i2 (.sf_string none) rep2 h
              | some f1 =>
                simp only [hl2] at hok
                by_cases hty : f1.type = .mfNode
                · rw [if_pos hty] at hok
                  injection hok with h2
                  subst h2
                  exact field_operation_preserves_allSet st n .remove i2 (.sf_string none) rep2 h
                · rw [if_neg hty] at hok
                  injection hok with h2
                  subst h2
                  exact field_operation_preserves_allSet st n .remove i2 (.sf_string none) rep2 h
  · intro fid rep2 st2 hok
    unfold wb_supervisor_field_remove_sf at hok
    cases fid with
    | none => exact CallResult.noConfusion hok
    | some n =>
      cases hl : lookupField st n with
      | none =>
        simp only [hl] at hok
        exact CallResult.noConfusion hok
      | some f =>
        simp only [hl] at hok
        by_cases h0 : f.data.nodeUidValue = 0
        · rw [if_pos h0] at hok
          injection hok with h2
          subst h2
          exact h
        · rw [if_neg h0] at hok
          cases hc : check_field st (some n) .sfNode true none false true with
          | none =>
            simp only [hc] at hok
            injection hok with h2
            subst h2
            exact h
          | some oi =>
            simp only [hc] at hok
            cases hl2 : lookupField (field_operation st n .remove (-1) rep2).1 n with
            | none =>
              simp only [hl2] at hok
              injection hok with h2
              subst h2
              exact field_operation_preserves_allSet st n .remove (-1) (.sf_string none) rep2 h
            | some f1 =>
              simp only [hl2] at hok
              injection hok with h2
              subst h2
              exact field_operation_preserves_allSet st n .remove (-1) (.sf_string none) rep2 h
  · intro fid fn rep2
    unfold wb_supervisor_field_import_sf_node
    repeat' split
    all_goals try exact h
    all_goals intro x hx
    all_goals exact absurd hx (by
      show x ∉ (store_imported_node_uid (flushFieldRequests _ _) _ _).queue
      rw [store_imported_node_uid_queue, flushFieldRequests_queue]
      exact List.not_mem_nil x)

/-- C2 witness: on a state whose queue holds one SET, a further SF_FLOAT set
and a (coalesced) SF_FLOAT get both leave a queue of SET requests only. -/
theorem pending_queue_only_sets_witness :
    allSetRequests ((wb_supervisor_field_set_sf_float stC2w (some 0) 2).1.queue) ∧
    allSetRequests ((wb_supervisor_field_get_sf_float stC2w (some 0) emptyReply).1.queue) := by
  have h := pending_queue_only_sets stC2w emptyReply (by unfold allSetRequests; decide)
  exact ⟨h.2.1 (some 0) 2, h.2.2.1 (some 0) emptyReply⟩

/-- C3: starting a serialization with an empty sent slot and a disciplined
queue (every entry but possibly the last is a SET, which is what the
flush-on-non-SET API discipline guarantees between calls), the serializer's
`assert(sent_field_get_request == NULL)` holds at every GET it moves — so at
most one GET enters the slot per step — the slot receives exactly the first
queued GET when there is one, and the entries after that GET — none, since a
queued GET is always last — are exactly what remains in the pending queue for
the next step. -/
theorem single_inflight_get (st : SupervisorState) (rep : StepReply)
    (hq : queueDisciplined st.queue) (hsent : st.sent_field_get_request = none) :
    serializeAssertOk st.queue none = true ∧
    (serializeFieldRequests st.queue (st.sent_field_get_request, st.garbage)).1 =
      st.queue.find? (fun r => decide (r.type = .get)) ∧
    entriesAfterFirstGet st.queue = (flushFieldRequests st rep).queue := by
  have h := serialize_disciplined st.queue hq st.garbage
  rw [hsent]
  refine ⟨h.2.1, h.1, ?_⟩
  rw [h.2.2, flushFieldRequests_queue]

/-- C3 witness: a queue holding one SET followed by one GET is disciplined;
serializing it moves the GET into the slot and leaves the queue empty. -/
theorem single_inflight_get_witness :
    serializeAssertOk stC3w.queue none = true ∧
    (serializeFieldRequests stC3w.queue (stC3w.sent_field_get_request, stC3w.garbage)).1 =
      stC3w.queue.find? (fun r => decide (r.type = .get)) ∧
    entriesAfterFirstGet stC3w.queue = (flushFieldRequests stC3w emptyReply).queue :=
  single_inflight_get stC3w emptyReply (by unfold queueDisciplined; decide) rfl

/-- C6 witness: removing node 5 from a three-node registry drops it, resets
its child's parent to -1, and leaves the unrelated node untouched. -/
theorem remove_node_orphan_reset_witness :
    ({ ndC6b with parent_id := -1 } ∈ remove_node_from_list 5 lC6w) ∧
    (ndC6c ∈ remove_node_from_list 5 lC6w) ∧
    ndC6a ∉ remove_node_from_list 5 lC6w := by
  have h := remove_node_orphan_reset 5 lC6w (by decide) (by decide)
  exact ⟨(h.2.2 ndC6b (by decide) (by decide)).1 (by decide),
    (h.2.2 ndC6c (by decide) (by decide)).2 (by decide),
    fun hmem => (h.1 ndC6a hmem) (by decide)⟩

/-- C8: contact-point cache freshness.  For a registered node, each of the
three contact-point queries issues its contact wire request exactly when the
simulation time is strictly greater than the node's stored
`contact_points_time_stamp`; a repeated query at the same simulation time is
served from the cache: it issues no wire request, leaves the state unchanged
and returns the same value (and a stale first query already leaves the state
unchanged), so the cache is recomputed at most once per distinct simulation
time. -/
theorem contact_points_cache_freshness (st : SupervisorState) (id : Int)
    (node : WbNodeStruct) (incl : Bool) (idx : Int) (t : ℚ) (rep rep2 : StepReply)
    (hsup : st.is_supervisor = true)
    (hn : find_node_by_id id st.nodes = some node)
    (hrem : rep.node_remove_node = none)
    (hrem2 : rep2.node_remove_node = none) :
    ((wb_supervisor_node_get_number_of_contact_points st (some id) incl t rep).2.2 = true ↔
      t > node.contact_points_time_stamp) ∧
    ((wb_supervisor_node_get_contact_point st (some id) idx t rep).2.2 = true ↔
      t > node.contact_points_time_stamp) ∧
    ((wb_supervisor_node_get_contact_point_node st (some id) idx t rep rep2).2.2.1 = true ↔
      t > node.contact_points_time_stamp) ∧
    (∀ rep3, wb_supervisor_node_get_number_of_contact_points
        (wb_supervisor_node_get_number_of_contact_points st (some id) incl t rep).1
        (some id) incl t rep3 =
      ((wb_supervisor_node_get_number_of_contact_points st (some id) incl t rep).1,
       (wb_supervisor_node_get_number_of_contact_points st (some id) incl t rep).2.1,
       false)) ∧
    (∀ rep3, wb_supervisor_node_get_contact_point
        (wb_supervisor_node_get_contact_point st (some id) idx t rep).1
        (some id) idx t rep3 =
      ((wb_supervisor_node_get_contact_point st (some id) idx t rep).1,
       (wb_supervisor_node_get_contact_point st (some id) idx t rep).2.1,
       false)) ∧
    (∀ rep3 rep4, (wb_supervisor_node_get_contact_point_node
        (wb_supervisor_node_get_contact_point_node st (some id) idx t rep rep2).1
        (some id) idx t rep3 rep4).2.2.1 = false) ∧
    (¬ t > node.contact_points_time_stamp →
      (wb_supervisor_node_get_number_of_contact_points st (some id) incl t rep).1 = st ∧
      (wb_supervisor_node_get_contact_point st (some id) idx t rep).1 = st) := by
  have hfindS := contact_refresh_state st id node t rep hn hrem
  have hex : ∃ nd1, find_node_by_id id (applyContactReply (flushFieldRequests
      (updateNode st id { node with contact_points_time_stamp := t }) rep) id rep).nodes =
        some nd1 ∧ nd1.contact_points_time_stamp = t := by
    rcases hrc : rep.node_get_contact_points with _ | ⟨k, ids⟩ <;>
      simp only [hrc] at hfindS <;> exact ⟨_, hfindS, rfl⟩
  obtain ⟨nd1, hfind1, hstamp1⟩ := hex
  have hsupA : (applyContactReply (flushFieldRequests
      (updateNode st id { node with contact_points_time_stamp := t }) rep) id
      rep).is_supervisor = true := by
    rw [applyContactReply_is_supervisor, flushFieldRequests_is_supervisor]
    exact hsup
  refine ⟨?_, ?_, ?_, ?_, ?_, ?_, ?_⟩
  · by_cases hgt : t > node.contact_points_time_stamp
    · rw [get_number_of_contact_points_eval_pos st id node incl t rep hsup hn hgt]
      exact iff_of_true rfl hgt
    · exact iff_of_false (fun h => by
        rw [get_number_of_contact_points_eval_neg st id node incl t rep hsup hn hgt] at h
        exact Bool.noConfusion h) hgt
  · by_cases hgt : t > node.contact_points_time_stamp
    · rw [get_contact_point_eval_pos st id node idx t rep hsup hn hgt]
      exact iff_of_true rfl hgt
    · exact iff_of_false (fun h => by
        rw [get_contact_point_eval_neg st id node idx t rep hsup hn hgt] at h
        exact Bool.noConfusion h) hgt
  · have hw := contact_point_node_wire st id idx t rep rep2 hsup
    simp only [hn] at hw
    rw [hw]
    exact ⟨fun h => of_decide_eq_true h, fun h => decide_eq_true h⟩
  · intro rep3
    by_cases hgt : t > node.contact_points_time_stamp
    · rw [get_number_of_contact_points_eval_pos st id node incl t rep hsup hn hgt]
      dsimp only
      rw [get_number_of_contact_points_eval_neg _ id nd1 incl t rep3 hsupA hfind1
        (by rw [hstamp1]; exact lt_irrefl t)]
      simp only [hfind1]
    · rw [get_number_of_contact_points_eval_neg st id node incl t rep hsup hn hgt]
      dsimp only
      rw [get_number_of_contact_points_eval_neg st id node incl t rep3 hsup hn hgt]
  · intro rep3
    by_cases hgt : t > node.contact_points_time_stamp
    · rw [get_contact_point_eval_pos st id node idx t rep hsup hn hgt]
      dsimp only
      rw [get_contact_point_eval_neg _ id nd1 idx t rep3 hsupA hfind1
        (by rw [hstamp1]; exact lt_irrefl t)]
      simp only [hfind1]
    · rw [get_contact_point_eval_neg st id node idx t rep hsup hn hgt]
      dsimp only
      rw [get_contact_point_eval_neg st id node idx t rep3 hsup hn hgt]
  · intro rep3 rep4
    have hsupP : (wb_supervisor_node_get_contact_point_node
        st (some id) idx t rep rep2).1.is_supervisor = true :=
      (contact_point_node_state_is_supervisor st id idx t rep rep2).trans hsup
    have hstampP := contact_point_node_state_stamp st id node idx t rep rep2 hsup hn hrem hrem2
    have hw := contact_point_node_wire
      (wb_supervisor_node_get_contact_point_node st (some id) idx t rep rep2).1
      id idx t rep3 rep4 hsupP
    cases hfp : find_node_by_id id
        (wb_supervisor_node_get_contact_point_node st (some id) idx t rep rep2).1.nodes with
    | none =>
      simp only [hfp] at hw
      exact hw
    | some m =>
      simp only [hfp] at hw
      rw [hfp] at hstampP
      have hm : m.contact_points_time_stamp =
          if t > node.contact_points_time_stamp then t
          else node.contact_points_time_stamp := by
        simpa using hstampP
      rw [hw, hm]
      by_cases hgt : t > node.contact_points_time_stamp
      · rw [if_pos hgt]
        exact decide_eq_false (lt_irrefl t)
      · rw [if_neg hgt]
        exact decide_eq_false hgt
  · intro hgt
    refine ⟨?_, ?_⟩
    · rw [get_number_of_contact_points_eval_neg st id node incl t rep hsup hn hgt]
    · rw [get_contact_point_eval_neg st id node idx t rep hsup hn hgt]

/-- C8 witness: on a one-node registry whose cached timestamp is -1, a query at
time 1 issues the contact wire request, and the repeated queries at time 1 are
served from the cache with no wire traffic and no state change. -/
theorem contact_points_cache_freshness_witness :
    (wb_supervisor_node_get_number_of_contact_points stC8w (some 5) false 1 repC8).2.2 = true ∧
    wb_supervisor_node_get_number_of_contact_points
        (wb_supervisor_node_get_number_of_contact_points stC8w (some 5) false 1 repC8).1
        (some 5) false 1 emptyReply =
      ((wb_supervisor_node_get_number_of_contact_points stC8w (some 5) false 1 repC8).1,
       (wb_supervisor_node_get_number_of_contact_points stC8w (some 5) false 1 repC8).2.1,
       false) ∧
    (wb_supervisor_node_get_contact_point_node
        (wb_supervisor_node_get_contact_point_node stC8w (some 5) 0 1 repC8 emptyReply).1
        (some 5) 0 1 emptyReply emptyReply).2.2.1 = false := by
  have h := contact_points_cache_freshness stC8w 5 ndC8 false 0 1 repC8 emptyReply
    rfl rfl rfl rfl
  exact ⟨h.1.mpr (by norm_num [ndC8]), h.2.2.2.1 emptyReply,
    h.2.2.2.2.2.1 emptyReply emptyReply⟩

end WebotsSupervisor
